import Mathlib

/-!
Shallow embedding of the Tetra PDF utility's core state-holding code:
the three file-manager variants (`src/core/file_manager.py`,
`src/core/file_manager_desktop.py`, `src/core/file_manager_mobile.py`)
and the two viewer screens (`src/ui/viewer_screen.py`,
`src/ui/mobile_viewer_screen.py`).

Python strings (file paths) are modelled as lists of characters so that
string predicates (`.lower().endswith('.pdf')`, membership tests) are
kernel-computable.  File-system probing (`os.path.exists`, `os.access`)
and PDF validation (which delegate to the OS and to PyPDF2/PyMuPDF) are
modelled as a pure environment of boolean oracles, since their results
are outside the program.  Stateful methods become functions from the
manager state to a `(response, new state, notification events)` triple;
a notification event records which registered observer callback was
invoked and the snapshot of the file list it received.
-/

namespace Tetra

/-- A Python string (used for file paths), as a list of characters. -/
abbrev PyStr := List Char

/-- Model of `os.path.basename`: the part of the path after the last `/`
(POSIX separator; used only to build status messages). -/
def basename (path : PyStr) : PyStr :=
  ((path.splitOn '/').getLast?).getD path

/-- Model of `os.path.dirname`: the part of the path before the last `/`. -/
def dirname (path : PyStr) : PyStr :=
  let parts := path.splitOn '/'
  if parts.length ≤ 1 then [] else List.intercalate ['/'] parts.dropLast

/-- Model of `file_path.lower().endswith('.pdf')` from the `add_files` validation. -/
def isPdfName (path : PyStr) : Bool :=
  List.isSuffixOf ".pdf".data (path.map Char.toLower)

/-- Pure model of the environment the managers probe: `os.path.exists`,
PDF validation (`_is_valid_pdf`, which delegates to PyPDF2/PyMuPDF or a
header check), and `os.access` read/write probes.  The `pages` field is
Modelled from the spec: the source delegates page concatenation to
PyPDF2's `PdfMerger.append` / PyMuPDF's `insert_pdf`, which are not part
of this repository; the spec's glossary defines merging as
"Concatenating the pages of multiple PDF files into one output file",
so `pages p` is the page sequence of the document stored at path `p`
(pages represented by opaque numeric identifiers). -/
structure FileSystem where
  pathExists : PyStr → Bool
  validPdf : PyStr → Bool
  readAccess : PyStr → Bool
  writeAccess : PyStr → Bool
  pages : PyStr → List Nat

/-- Model of `FileOperationResult` enum.  The base and desktop modules declare
`SUCCESS`, `ERROR`, `CANCELLED`; the mobile module's enum additionally
declares `PERMISSION_DENIED`.  All four live in one Lean type so the
variants can be compared. -/
inductive FileOperationResult where
  | success
  | error
  | cancelled
  | permission_denied
deriving DecidableEq, Repr

/-- Model of `FileOperationResponse` dataclass (the `data` field is `None` in
every construction in the three managers and is omitted). -/
structure FileOperationResponse where
  result : FileOperationResult
  message : String
deriving Repr

/-- State held by a manager: `selected_files` plus the registered
observer callbacks (identified by numeric ids). -/
structure ManagerState where
  selected_files : List PyStr
  observers : List Nat
deriving DecidableEq, Repr

/-- One observer invocation: the callback id and the snapshot (copy) of
the file list passed to it. -/
abbrev Notification := Nat × List PyStr

/-- Accumulator of the `add_files` loop: the working file list and the
`added_files` / `invalid_files` message lists. -/
structure AddAcc where
  files : List PyStr
  added : List PyStr
  invalid : List PyStr

/-- Python `list.insert(n, x)`: appends when `n` is at or past the end,
otherwise inserts before index `n`. -/
def pyInsert {α : Type} (l : List α) (n : Nat) (x : α) : List α :=
  if l.length < n then l ++ [x] else l.insertIdx n x

/-- Operations on the selected-file list (the mutating methods shared by
all three manager variants). -/
inductive Op where
  | addFiles (file_paths : List PyStr)
  | removeFile (index : Int)
  | moveFile (from_index to_index : Int)
  | clearFiles
deriving Repr

namespace PDFFileManager

/-- Model of `_notify_observers`: each registered callback is called with
`self.selected_files.copy()` (a value snapshot of the updated list). -/
def notify_observers (s : ManagerState) : List Notification :=
  s.observers.map (fun callback => (callback, s.selected_files))

/-- Model of `add_observer`. -/
def add_observer (s : ManagerState) (callback : Nat) : ManagerState :=
  { s with observers := s.observers ++ [callback] }

/-- Model of `remove_observer` (Python `list.remove` drops the first occurrence). -/
def remove_observer (s : ManagerState) (callback : Nat) : ManagerState :=
  if s.observers.contains callback then { s with observers := s.observers.erase callback }
  else s

/-- One iteration of the `add_files` loop of the base manager: existence,
extension and validity checks push a message onto `invalid_files`; a
path already in `selected_files` is silently skipped; otherwise the path
is appended to both `selected_files` and `added_files`. -/
def addStep (fs : FileSystem) (acc : AddAcc) (file_path : PyStr) : AddAcc :=
  if !(fs.pathExists file_path) then
    { acc with invalid := acc.invalid ++ [basename file_path ++ " (not found)".data] }
  else if !(isPdfName file_path) then
    { acc with invalid := acc.invalid ++ [basename file_path ++ " (not a PDF)".data] }
  else if !(fs.validPdf file_path) then
    { acc with invalid := acc.invalid ++ [basename file_path ++ " (corrupted PDF)".data] }
  else if acc.files.contains file_path then
    acc
  else
    { acc with files := acc.files ++ [file_path], added := acc.added ++ [basename file_path] }

/-- Model of `PDFFileManager.add_files`.  The base manager notifies observers
unconditionally after the loop. -/
def add_files (fs : FileSystem) (s : ManagerState) (file_paths : List PyStr) :
    FileOperationResponse × ManagerState × List Notification :=
  if file_paths.isEmpty then
    (⟨.error, "No files provided"⟩, s, [])
  else
    let acc := file_paths.foldl (addStep fs) ⟨s.selected_files, [], []⟩
    let s' : ManagerState := { s with selected_files := acc.files }
    let events := notify_observers s'
    if !acc.added.isEmpty && acc.invalid.isEmpty then
      (⟨.success, "Added " ++ toString acc.added.length ++ " files successfully"⟩, s', events)
    else if !acc.added.isEmpty && !acc.invalid.isEmpty then
      (⟨.success, "Added " ++ toString acc.added.length ++ " files. Skipped " ++
        toString acc.invalid.length ++ " invalid files"⟩, s', events)
    else
      (⟨.error, "No valid files added. Issues: " ++
        String.mk (List.intercalate ", ".data acc.invalid)⟩, s', events)

/-- Model of `PDFFileManager.remove_file`. -/
def remove_file (s : ManagerState) (index : Int) :
    FileOperationResponse × ManagerState × List Notification :=
  if ¬(0 ≤ index ∧ index < (s.selected_files.length : Int)) then
    (⟨.error, "Invalid file index"⟩, s, [])
  else
    let removed_file := basename ((s.selected_files[index.toNat]?).getD [])
    let s' : ManagerState := { s with selected_files := s.selected_files.eraseIdx index.toNat }
    (⟨.success, "Removed " ++ String.mk removed_file⟩, s', notify_observers s')

/-- Model of `PDFFileManager.clear_files`. -/
def clear_files (s : ManagerState) :
    FileOperationResponse × ManagerState × List Notification :=
  let count := s.selected_files.length
  let s' : ManagerState := { s with selected_files := [] }
  (⟨.success, "Cleared " ++ toString count ++ " files"⟩, s', notify_observers s')

/-- Model of `PDFFileManager.move_file` (`pop(from_index)` then
`insert(to_index, ...)`). -/
def move_file (s : ManagerState) (from_index to_index : Int) :
    FileOperationResponse × ManagerState × List Notification :=
  if ¬(0 ≤ from_index ∧ from_index < (s.selected_files.length : Int) ∧
       0 ≤ to_index ∧ to_index < (s.selected_files.length : Int)) then
    (⟨.error, "Invalid indices"⟩, s, [])
  else
    let file_path := (s.selected_files[from_index.toNat]?).getD []
    let moved := pyInsert (s.selected_files.eraseIdx from_index.toNat) to_index.toNat file_path
    let s' : ManagerState := { s with selected_files := moved }
    (⟨.success, "File reordered successfully"⟩, s', notify_observers s')

/-- Model of `PDFFileManager.get_files` (returns a copy; by value semantics, the
current list). -/
def get_files (s : ManagerState) : List PyStr := s.selected_files

/-- Model of `PDFFileManager.get_file_count`. -/
def get_file_count (s : ManagerState) : Nat := s.selected_files.length

/-- The per-file loop of `merge_pdfs`: the first missing file aborts
with an error; otherwise each file's page sequence is appended
(`merger.append(file_path)`, Modelled from the spec as page-sequence
concatenation). -/
def mergeLoop (fs : FileSystem) : List PyStr → List Nat →
    Except FileOperationResponse (List Nat)
  | [], acc => .ok acc
  | file_path :: rest, acc =>
    if !(fs.pathExists file_path) then
      .error ⟨.error, "File not found: " ++ String.mk (basename file_path)⟩
    else
      mergeLoop fs rest (acc ++ fs.pages file_path)

/-- Model of `PDFFileManager.merge_pdfs`.  `libAvailable` models
`PDF_LIBRARY_AVAILABLE`; the third component is the page sequence
written to `output_path` on success. -/
def merge_pdfs (libAvailable : Bool) (fs : FileSystem) (s : ManagerState)
    (output_path : PyStr) :
    FileOperationResponse × ManagerState × Option (List Nat) :=
  if !libAvailable then
    (⟨.error, "PyPDF2 library not available. Install with: pip install PyPDF2"⟩, s, none)
  else if s.selected_files.length < 2 then
    (⟨.error, "Need at least 2 files to merge"⟩, s, none)
  else
    match mergeLoop fs s.selected_files [] with
    | .error resp => (resp, s, none)
    | .ok pages =>
      (⟨.success, "Successfully merged " ++ toString s.selected_files.length ++
        " files to " ++ String.mk (basename output_path)⟩, s, some pages)

/-- Dispatch of the four list-mutating operations. -/
def applyOp (fs : FileSystem) (s : ManagerState) :
    Op → FileOperationResponse × ManagerState × List Notification
  | .addFiles file_paths => add_files fs s file_paths
  | .removeFile index => remove_file s index
  | .moveFile from_index to_index => move_file s from_index to_index
  | .clearFiles => clear_files s

/-- Run a sequence of list-mutating operations, keeping the state. -/
def runOps (fs : FileSystem) (s : ManagerState) (ops : List Op) : ManagerState :=
  ops.foldl (fun st op => (applyOp fs st op).2.1) s

end PDFFileManager

namespace DesktopPDFFileManager

/-- Model of `_notify_file_list_observers` (same behavior as the base manager's
`_notify_observers`). -/
def notify_file_list_observers (s : ManagerState) : List Notification :=
  s.observers.map (fun callback => (callback, s.selected_files))

/-- Model of `add_observer`. -/
def add_observer (s : ManagerState) (callback : Nat) : ManagerState :=
  { s with observers := s.observers ++ [callback] }

/-- Model of `remove_observer`. -/
def remove_observer (s : ManagerState) (callback : Nat) : ManagerState :=
  if s.observers.contains callback then { s with observers := s.observers.erase callback }
  else s

/-- One iteration of the desktop `add_files` loop: unlike the base
manager, a duplicate path is recorded in `invalid_files` as
"(already added)". -/
def addStep (fs : FileSystem) (acc : AddAcc) (path : PyStr) : AddAcc :=
  if !(fs.pathExists path) then
    { acc with invalid := acc.invalid ++ [basename path ++ " (not found)".data] }
  else if !(isPdfName path) then
    { acc with invalid := acc.invalid ++ [basename path ++ " (not a PDF)".data] }
  else if !(fs.validPdf path) then
    { acc with invalid := acc.invalid ++ [basename path ++ " (corrupted)".data] }
  else if acc.files.contains path then
    { acc with invalid := acc.invalid ++ [basename path ++ " (already added)".data] }
  else
    { acc with files := acc.files ++ [path], added := acc.added ++ [basename path] }

/-- Model of `DesktopPDFFileManager.add_files`.  Observers are notified only when
`added_files` is non-empty. -/
def add_files (fs : FileSystem) (s : ManagerState) (file_paths : List PyStr) :
    FileOperationResponse × ManagerState × List Notification :=
  if file_paths.isEmpty then
    (⟨.error, "No files provided"⟩, s, [])
  else
    let acc := file_paths.foldl (addStep fs) ⟨s.selected_files, [], []⟩
    let s' : ManagerState := { s with selected_files := acc.files }
    let events := if !acc.added.isEmpty then notify_file_list_observers s' else []
    if !acc.added.isEmpty && acc.invalid.isEmpty then
      (⟨.success, "Added " ++ toString acc.added.length ++ " files"⟩, s', events)
    else if !acc.added.isEmpty && !acc.invalid.isEmpty then
      (⟨.success, "Added " ++ toString acc.added.length ++ " files; skipped " ++
        toString acc.invalid.length ++ " invalid: " ++
        String.mk (List.intercalate ", ".data acc.invalid)⟩, s', events)
    else
      (⟨.error, "No valid files added: " ++
        String.mk (List.intercalate ", ".data acc.invalid)⟩, s', events)

/-- Model of `DesktopPDFFileManager.remove_file`. -/
def remove_file (s : ManagerState) (index : Int) :
    FileOperationResponse × ManagerState × List Notification :=
  if ¬(0 ≤ index ∧ index < (s.selected_files.length : Int)) then
    (⟨.error, "Invalid index"⟩, s, [])
  else
    let removed_file_name := basename ((s.selected_files[index.toNat]?).getD [])
    let s' : ManagerState := { s with selected_files := s.selected_files.eraseIdx index.toNat }
    (⟨.success, "Removed " ++ String.mk removed_file_name⟩, s', notify_file_list_observers s')

/-- Model of `DesktopPDFFileManager.clear_files`. -/
def clear_files (s : ManagerState) :
    FileOperationResponse × ManagerState × List Notification :=
  let file_count := s.selected_files.length
  let s' : ManagerState := { s with selected_files := [] }
  (⟨.success, "Cleared " ++ toString file_count ++ " files"⟩, s', notify_file_list_observers s')

/-- Model of `DesktopPDFFileManager.move_file`. -/
def move_file (s : ManagerState) (from_index to_index : Int) :
    FileOperationResponse × ManagerState × List Notification :=
  if ¬(0 ≤ from_index ∧ from_index < (s.selected_files.length : Int) ∧
       0 ≤ to_index ∧ to_index < (s.selected_files.length : Int)) then
    (⟨.error, "Invalid indices"⟩, s, [])
  else
    let file_to_move := (s.selected_files[from_index.toNat]?).getD []
    let moved := pyInsert (s.selected_files.eraseIdx from_index.toNat) to_index.toNat file_to_move
    let s' : ManagerState := { s with selected_files := moved }
    (⟨.success, "Reordered files"⟩, s', notify_file_list_observers s')

/-- Model of `DesktopPDFFileManager.get_files`. -/
def get_files (s : ManagerState) : List PyStr := s.selected_files

/-- Model of `DesktopPDFFileManager.get_file_count`. -/
def get_file_count (s : ManagerState) : Nat := s.selected_files.length

/-- The per-file loop of the desktop `merge_pdfs`
(`pdf_merger.insert_pdf(source_pdf)`, Modelled from the spec as
page-sequence concatenation). -/
def mergeLoop (fs : FileSystem) : List PyStr → List Nat →
    Except FileOperationResponse (List Nat)
  | [], acc => .ok acc
  | file_path :: rest, acc =>
    if !(fs.pathExists file_path) then
      .error ⟨.error, "Missing: " ++ String.mk (basename file_path)⟩
    else
      mergeLoop fs rest (acc ++ fs.pages file_path)

/-- Model of `DesktopPDFFileManager.merge_pdfs`. -/
def merge_pdfs (libAvailable : Bool) (fs : FileSystem) (s : ManagerState)
    (output_path : PyStr) :
    FileOperationResponse × ManagerState × Option (List Nat) :=
  if !libAvailable then
    (⟨.error, "PyMuPDF not installed. Run: pip install PyMuPDF"⟩, s, none)
  else if s.selected_files.length < 2 then
    (⟨.error, "Need at least 2 PDFs to merge"⟩, s, none)
  else
    match mergeLoop fs s.selected_files [] with
    | .error resp => (resp, s, none)
    | .ok pages =>
      (⟨.success, "Merged " ++ toString s.selected_files.length ++ " PDFs to " ++
        String.mk (basename output_path)⟩, s, some pages)

/-- Dispatch of the four list-mutating operations. -/
def applyOp (fs : FileSystem) (s : ManagerState) :
    Op → FileOperationResponse × ManagerState × List Notification
  | .addFiles file_paths => add_files fs s file_paths
  | .removeFile index => remove_file s index
  | .moveFile from_index to_index => move_file s from_index to_index
  | .clearFiles => clear_files s

/-- Run a sequence of list-mutating operations, keeping the state. -/
def runOps (fs : FileSystem) (s : ManagerState) (ops : List Op) : ManagerState :=
  ops.foldl (fun st op => (applyOp fs st op).2.1) s

end DesktopPDFFileManager

namespace MobilePDFFileManager

/-- Model of `_notify_file_list_observers`. -/
def notify_file_list_observers (s : ManagerState) : List Notification :=
  s.observers.map (fun callback => (callback, s.selected_files))

/-- Model of `add_observer`. -/
def add_observer (s : ManagerState) (callback : Nat) : ManagerState :=
  { s with observers := s.observers ++ [callback] }

/-- Model of `remove_observer`. -/
def remove_observer (s : ManagerState) (callback : Nat) : ManagerState :=
  if s.observers.contains callback then { s with observers := s.observers.erase callback }
  else s

/-- One iteration of the mobile `add_files` loop: adds a
`_has_file_access` (read-permission) check between the existence and
extension checks. -/
def addStep (fs : FileSystem) (acc : AddAcc) (path : PyStr) : AddAcc :=
  if !(fs.pathExists path) then
    { acc with invalid := acc.invalid ++ [basename path ++ " (not found)".data] }
  else if !(fs.readAccess path) then
    { acc with invalid := acc.invalid ++ [basename path ++ " (no permission)".data] }
  else if !(isPdfName path) then
    { acc with invalid := acc.invalid ++ [basename path ++ " (not PDF)".data] }
  else if !(fs.validPdf path) then
    { acc with invalid := acc.invalid ++ [basename path ++ " (corrupted)".data] }
  else if acc.files.contains path then
    { acc with invalid := acc.invalid ++ [basename path ++ " (already added)".data] }
  else
    { acc with files := acc.files ++ [path], added := acc.added ++ [basename path] }

/-- Model of `MobilePDFFileManager.add_files`.  Observers are notified only when
`added_files` is non-empty. -/
def add_files (fs : FileSystem) (s : ManagerState) (file_paths : List PyStr) :
    FileOperationResponse × ManagerState × List Notification :=
  if file_paths.isEmpty then
    (⟨.error, "No files selected"⟩, s, [])
  else
    let acc := file_paths.foldl (addStep fs) ⟨s.selected_files, [], []⟩
    let s' : ManagerState := { s with selected_files := acc.files }
    let events := if !acc.added.isEmpty then notify_file_list_observers s' else []
    if !acc.added.isEmpty && acc.invalid.isEmpty then
      (⟨.success, "Added " ++ toString acc.added.length ++ " files"⟩, s', events)
    else if !acc.added.isEmpty && !acc.invalid.isEmpty then
      (⟨.success, "Added " ++ toString acc.added.length ++ " files, skipped " ++
        toString acc.invalid.length ++ " invalid files"⟩, s', events)
    else
      (⟨.error, "No valid files added: " ++
        String.mk (List.intercalate "; ".data acc.invalid)⟩, s', events)

/-- Model of `MobilePDFFileManager.remove_file`. -/
def remove_file (s : ManagerState) (index : Int) :
    FileOperationResponse × ManagerState × List Notification :=
  if ¬(0 ≤ index ∧ index < (s.selected_files.length : Int)) then
    (⟨.error, "Invalid selection"⟩, s, [])
  else
    let removed_file_name := basename ((s.selected_files[index.toNat]?).getD [])
    let s' : ManagerState := { s with selected_files := s.selected_files.eraseIdx index.toNat }
    (⟨.success, "Removed " ++ String.mk removed_file_name⟩, s', notify_file_list_observers s')

/-- Model of `MobilePDFFileManager.clear_files`. -/
def clear_files (s : ManagerState) :
    FileOperationResponse × ManagerState × List Notification :=
  let file_count := s.selected_files.length
  let s' : ManagerState := { s with selected_files := [] }
  (⟨.success, "Cleared " ++ toString file_count ++ " files"⟩, s', notify_file_list_observers s')

/-- Model of `MobilePDFFileManager.move_file`. -/
def move_file (s : ManagerState) (from_index to_index : Int) :
    FileOperationResponse × ManagerState × List Notification :=
  if ¬(0 ≤ from_index ∧ from_index < (s.selected_files.length : Int) ∧
       0 ≤ to_index ∧ to_index < (s.selected_files.length : Int)) then
    (⟨.error, "Invalid selection"⟩, s, [])
  else
    let file_to_move := (s.selected_files[from_index.toNat]?).getD []
    let moved := pyInsert (s.selected_files.eraseIdx from_index.toNat) to_index.toNat file_to_move
    let s' : ManagerState := { s with selected_files := moved }
    (⟨.success, "Files reordered"⟩, s', notify_file_list_observers s')

/-- Model of `MobilePDFFileManager.get_files`. -/
def get_files (s : ManagerState) : List PyStr := s.selected_files

/-- Model of `MobilePDFFileManager.get_file_count`. -/
def get_file_count (s : ManagerState) : Nat := s.selected_files.length

/-- The per-file loop of the mobile `merge_pdfs`: each file is checked
for existence and then for read access (`_has_file_access`); a failure
aborts with `ERROR` resp. `PERMISSION_DENIED`. -/
def mergeLoop (fs : FileSystem) : List PyStr → List Nat →
    Except FileOperationResponse (List Nat)
  | [], acc => .ok acc
  | file_path :: rest, acc =>
    if !(fs.pathExists file_path) then
      .error ⟨.error, "File missing: " ++ String.mk (basename file_path)⟩
    else if !(fs.readAccess file_path) then
      .error ⟨.permission_denied, "No access to: " ++ String.mk (basename file_path)⟩
    else
      mergeLoop fs rest (acc ++ fs.pages file_path)

/-- Model of `MobilePDFFileManager.merge_pdfs`.  Before merging it additionally
checks `_has_write_access(os.path.dirname(output_path))` and returns
`PERMISSION_DENIED` when that fails. -/
def merge_pdfs (libAvailable : Bool) (fs : FileSystem) (s : ManagerState)
    (output_path : PyStr) :
    FileOperationResponse × ManagerState × Option (List Nat) :=
  if !libAvailable then
    (⟨.error, "PDF library not available. Install PyMuPDF to enable merging"⟩, s, none)
  else if s.selected_files.length < 2 then
    (⟨.error, "Select at least 2 PDFs to merge"⟩, s, none)
  else if !(fs.writeAccess (dirname output_path)) then
    (⟨.permission_denied, "No write permission for output location"⟩, s, none)
  else
    match mergeLoop fs s.selected_files [] with
    | .error resp => (resp, s, none)
    | .ok pages =>
      (⟨.success, "Successfully merged " ++ toString s.selected_files.length ++
        " PDFs"⟩, s, some pages)

/-- Dispatch of the four list-mutating operations. -/
def applyOp (fs : FileSystem) (s : ManagerState) :
    Op → FileOperationResponse × ManagerState × List Notification
  | .addFiles file_paths => add_files fs s file_paths
  | .removeFile index => remove_file s index
  | .moveFile from_index to_index => move_file s from_index to_index
  | .clearFiles => clear_files s

/-- Run a sequence of list-mutating operations, keeping the state. -/
def runOps (fs : FileSystem) (s : ManagerState) (ops : List Op) : ManagerState :=
  ops.foldl (fun st op => (applyOp fs st op).2.1) s

end MobilePDFFileManager

/-- The `page_cache` dict of a viewer screen: page number to rendered
image data, as an insertion-ordered association list (Python dicts
preserve insertion order, which the desktop eviction fallback
`next(iter(self.page_cache))` relies on).  The image bytes are opaque. -/
abbrev Cache := List (Nat × String)

/-- The keys of the cache in insertion order (`self.page_cache.keys()`). -/
def cacheKeys (c : Cache) : List Nat := c.map Prod.fst

/-- Model of `self.page_cache[k] = v`: updates the entry in place when the key is
present (Python dicts keep the original position), otherwise appends. -/
def cacheInsert (c : Cache) (k : Nat) (v : String) : Cache :=
  if (cacheKeys c).contains k then c.map (fun kv => if kv.1 = k then (k, v) else kv)
  else c ++ [(k, v)]

/-- Model of `self.page_cache.pop(k)` / `del self.page_cache[k]`. -/
def cacheErase (c : Cache) (k : Nat) : Cache := c.filter (fun kv => kv.1 != k)

/-- Page-navigation state of a viewer screen after a PDF is loaded. -/
structure ViewerNavState where
  current_page : Nat
  total_pages : Nat
deriving DecidableEq, Repr

/-- The navigation operations of a viewer screen. -/
inductive NavOp where
  | next
  | previous
  | jump (page_number : Int)
deriving Repr

namespace DesktopViewer

/-- Model of `self.max_cache_size = 5` ("More memory available on desktop"). -/
def max_cache_size : Nat := 5

/-- The `pages_to_remove` list of the desktop `add_to_cache`: cached
pages with `abs(cached_page - current_page) > 2`. -/
def pagesToRemove (current_page : Nat) (c : Cache) : List Nat :=
  (cacheKeys c).filter (fun p => 2 < Nat.dist p current_page)

/-- Model of `max(pages_to_remove, key=lambda p: abs(p - self.current_page))`:
Python's `max` returns the first element attaining the maximum. -/
def maxByDist (current_page : Nat) : List Nat → Option Nat
  | [] => none
  | p :: rest =>
    match maxByDist current_page rest with
    | none => some p
    | some b => if Nat.dist p current_page < Nat.dist b current_page then some b else some p

/-- The eviction block of the desktop `add_to_cache`: remove the cached
page furthest from the current page among those more than 2 pages away;
if every cached page is within 2 pages, pop the oldest entry
(`next(iter(self.page_cache))`). -/
def evict (current_page : Nat) (c : Cache) : Cache :=
  match maxByDist current_page (pagesToRemove current_page c) with
  | some furthest_page => cacheErase c furthest_page
  | none =>
    match c with
    | [] => c
    | kv :: _ => cacheErase c kv.1

/-- Desktop `ViewerScreen.add_to_cache`: evict (as above) when the cache
has reached `max_cache_size`, then store the page. -/
def add_to_cache (current_page : Nat) (c : Cache) (page_number : Nat)
    (image_data : String) : Cache :=
  if max_cache_size ≤ c.length then cacheInsert (evict current_page c) page_number image_data
  else cacheInsert c page_number image_data

/-- Desktop `ViewerScreen.show_next`. -/
def show_next (v : ViewerNavState) : ViewerNavState :=
  if v.current_page < v.total_pages then { v with current_page := v.current_page + 1 }
  else v

/-- Desktop `ViewerScreen.show_previous`. -/
def show_previous (v : ViewerNavState) : ViewerNavState :=
  if 1 < v.current_page then { v with current_page := v.current_page - 1 }
  else v

/-- Desktop `ViewerScreen.jump_to_page`: out-of-range targets are
ignored. -/
def jump_to_page (v : ViewerNavState) (page_number : Int) : ViewerNavState :=
  if 1 ≤ page_number ∧ page_number ≤ (v.total_pages : Int) then
    { v with current_page := page_number.toNat }
  else v

/-- Dispatch of the navigation operations. -/
def applyNav (v : ViewerNavState) : NavOp → ViewerNavState
  | .next => show_next v
  | .previous => show_previous v
  | .jump page_number => jump_to_page v page_number

/-- Run a sequence of navigation operations. -/
def runNav (v : ViewerNavState) (ops : List NavOp) : ViewerNavState :=
  ops.foldl applyNav v

end DesktopViewer

namespace MobileViewer

/-- Model of `self.max_cache_size = 2` ("Aggressive memory management for
mobile"). -/
def max_cache_size : Nat := 2

/-- Mobile `ViewerScreen.add_to_cache`: when the cache has reached
`max_cache_size`, delete every cached page other than the current page,
then store the page. -/
def add_to_cache (current_page : Nat) (c : Cache) (page_number : Nat)
    (image_data : String) : Cache :=
  if max_cache_size ≤ c.length then
    cacheInsert (c.filter (fun kv => kv.1 == current_page)) page_number image_data
  else cacheInsert c page_number image_data

/-- Mobile `ViewerScreen.show_next` (same guard as the desktop one). -/
def show_next (v : ViewerNavState) : ViewerNavState :=
  if v.current_page < v.total_pages then { v with current_page := v.current_page + 1 }
  else v

/-- Mobile `ViewerScreen.show_previous`. -/
def show_previous (v : ViewerNavState) : ViewerNavState :=
  if 1 < v.current_page then { v with current_page := v.current_page - 1 }
  else v

/-- Mobile `ViewerScreen.jump_to_page`. -/
def jump_to_page (v : ViewerNavState) (page_number : Int) : ViewerNavState :=
  if 1 ≤ page_number ∧ page_number ≤ (v.total_pages : Int) then
    { v with current_page := page_number.toNat }
  else v

/-- Dispatch of the navigation operations. -/
def applyNav (v : ViewerNavState) : NavOp → ViewerNavState
  | .next => show_next v
  | .previous => show_previous v
  | .jump page_number => jump_to_page v page_number

/-- Run a sequence of navigation operations. -/
def runNav (v : ViewerNavState) (ops : List NavOp) : ViewerNavState :=
  ops.foldl applyNav v

end MobileViewer

section Lemmas

/-- Shape of one `add_files` loop iteration, shared by the three
variants: the iteration either leaves `files` and `added` unchanged, or
the path is not yet selected and is appended to both. -/
def StepOk (step : AddAcc → PyStr → AddAcc) : Prop :=
  ∀ (acc : AddAcc) (p : PyStr),
    ((step acc p).files = acc.files ∧ (step acc p).added = acc.added) ∨
    (p ∉ acc.files ∧ (step acc p).files = acc.files ++ [p] ∧
      (step acc p).added = acc.added ++ [basename p])

theorem stepOk_base (fs : FileSystem) : StepOk (PDFFileManager.addStep fs) := by
  intro acc p
  unfold PDFFileManager.addStep
  split
  · exact Or.inl ⟨rfl, rfl⟩
  split
  · exact Or.inl ⟨rfl, rfl⟩
  split
  · exact Or.inl ⟨rfl, rfl⟩
  split
  · exact Or.inl ⟨rfl, rfl⟩
  · rename_i hcon
    exact Or.inr ⟨by simpa using hcon, rfl, rfl⟩

theorem stepOk_desktop (fs : FileSystem) : StepOk (DesktopPDFFileManager.addStep fs) := by
  intro acc p
  unfold DesktopPDFFileManager.addStep
  split
  · exact Or.inl ⟨rfl, rfl⟩
  split
  · exact Or.inl ⟨rfl, rfl⟩
  split
  · exact Or.inl ⟨rfl, rfl⟩
  split
  · exact Or.inl ⟨rfl, rfl⟩
  · rename_i hcon
    exact Or.inr ⟨by simpa using hcon, rfl, rfl⟩

theorem stepOk_mobile (fs : FileSystem) : StepOk (MobilePDFFileManager.addStep fs) := by
  intro acc p
  unfold MobilePDFFileManager.addStep
  split
  · exact Or.inl ⟨rfl, rfl⟩
  split
  · exact Or.inl ⟨rfl, rfl⟩
  split
  · exact Or.inl ⟨rfl, rfl⟩
  split
  · exact Or.inl ⟨rfl, rfl⟩
  split
  · exact Or.inl ⟨rfl, rfl⟩
  · rename_i hcon
    exact Or.inr ⟨by simpa using hcon, rfl, rfl⟩

/-- The `add_files` loop preserves no-duplicates of the file list. -/
theorem foldl_step_nodup {step : AddAcc → PyStr → AddAcc} (hs : StepOk step) :
    ∀ (paths : List PyStr) (acc : AddAcc), acc.files.Nodup →
      ((paths.foldl step acc).files).Nodup := by
  intro paths
  induction paths with
  | nil => intro acc h; exact h
  | cons p rest ih =>
    intro acc h
    refine ih (step acc p) ?_
    rcases hs acc p with ⟨hf, _⟩ | ⟨hmem, hf, _⟩
    · rw [hf]; exact h
    · rw [hf]
      simpa [List.nodup_append] using ⟨h, hmem⟩

/-- Model of `added_files` only grows along the `add_files` loop. -/
theorem foldl_step_added_len {step : AddAcc → PyStr → AddAcc} (hs : StepOk step) :
    ∀ (paths : List PyStr) (acc : AddAcc),
      acc.added.length ≤ (paths.foldl step acc).added.length := by
  intro paths
  induction paths with
  | nil => intro acc; exact Nat.le_refl _
  | cons p rest ih =>
    intro acc
    refine Nat.le_trans ?_ (ih (step acc p))
    rcases hs acc p with ⟨_, ha⟩ | ⟨_, _, ha⟩
    · rw [ha]
    · rw [ha]; simp

/-- If the `add_files` loop added nothing, the file list is unchanged. -/
theorem foldl_step_files_of_added {step : AddAcc → PyStr → AddAcc} (hs : StepOk step) :
    ∀ (paths : List PyStr) (acc : AddAcc),
      (paths.foldl step acc).added.length = acc.added.length →
      (paths.foldl step acc).files = acc.files := by
  intro paths
  induction paths with
  | nil => intro acc _; rfl
  | cons p rest ih =>
    intro acc hlen
    rcases hs acc p with ⟨hf, ha⟩ | ⟨_, _, ha⟩
    · have hlen' : (rest.foldl step (step acc p)).added.length = (step acc p).added.length := by
        rw [ha]; simpa [List.foldl_cons] using hlen
      have := ih (step acc p) hlen'
      simpa [List.foldl_cons, hf] using this
    · exfalso
      have h1 := foldl_step_added_len hs rest (step acc p)
      rw [ha] at h1
      simp only [List.foldl_cons] at hlen
      simp [List.length_append] at h1
      omega

/-- The element at a valid index, consed back onto the erasure of that
index, is a permutation of the original list. -/
theorem cons_getElem_eraseIdx_perm {α : Type} (l : List α) (i : Nat) (h : i < l.length) :
    List.Perm (l[i] :: l.eraseIdx i) l := by
  have h2 : l.take i ++ l[i] :: l.drop (i + 1) = l := by
    rw [List.getElem_cons_drop l i h, List.take_append_drop]
  conv_rhs => rw [← h2]
  rw [List.eraseIdx_eq_take_drop_succ]
  exact List.perm_middle.symm

end Lemmas

section CacheLemmas

theorem length_cacheInsert_le (c : Cache) (k : Nat) (v : String) :
    (cacheInsert c k v).length ≤ c.length + 1 := by
  unfold cacheInsert
  split
  · simp
  · simp

theorem cacheKeys_cacheInsert (c : Cache) (k : Nat) (v : String) :
    cacheKeys (cacheInsert c k v) =
      if (cacheKeys c).contains k then cacheKeys c else cacheKeys c ++ [k] := by
  unfold cacheInsert
  split
  · unfold cacheKeys
    rw [List.map_map]
    refine List.map_congr_left ?_
    intro kv _
    by_cases hk : kv.1 = k
    · simp [hk]
    · simp [hk]
  · simp [cacheKeys]

theorem cacheKeys_nodup_cacheInsert (c : Cache) (k : Nat) (v : String)
    (h : (cacheKeys c).Nodup) : (cacheKeys (cacheInsert c k v)).Nodup := by
  rw [cacheKeys_cacheInsert]
  split
  · exact h
  · rename_i hcon
    have : k ∉ cacheKeys c := by simpa using hcon
    simpa [List.nodup_append] using ⟨h, this⟩

theorem length_cacheErase_le (c : Cache) (k : Nat) :
    (cacheErase c k).length ≤ c.length :=
  List.length_filter_le _ _

theorem length_cacheErase_lt :
    ∀ (c : Cache) (k : Nat), k ∈ cacheKeys c → (cacheErase c k).length < c.length := by
  intro c
  induction c with
  | nil => intro k h; simp [cacheKeys] at h
  | cons kv rest ih =>
    intro k h
    unfold cacheErase
    rw [List.filter_cons]
    by_cases hk : kv.1 = k
    · have hbne : (kv.1 != k) = false := by simp [hk]
      have h1 := List.length_filter_le (fun kv' : Nat × String => kv'.1 != k) rest
      simp only [hbne, Bool.false_eq_true, if_false, List.length_cons]
      omega
    · have hmem : k ∈ cacheKeys rest := by
        rcases (by simpa [cacheKeys] using h : k = kv.1 ∨ k ∈ cacheKeys rest) with h' | h'
        · exact absurd h'.symm hk
        · exact h'
      have h2 := ih k hmem
      unfold cacheErase at h2
      have hbne : (kv.1 != k) = true := by simpa using hk
      simp only [hbne, if_true, List.length_cons]
      omega

theorem cacheKeys_cacheErase_sublist (c : Cache) (k : Nat) :
    List.Sublist (cacheKeys (cacheErase c k)) (cacheKeys c) :=
  List.Sublist.map Prod.fst (List.filter_sublist c)

/-- With no duplicate keys, at most one entry has a given key. -/
theorem length_filter_key_le_one :
    ∀ (c : Cache) (cur : Nat), (cacheKeys c).Nodup →
      (c.filter (fun kv => kv.1 == cur)).length ≤ 1 := by
  intro c
  induction c with
  | nil => intro cur _; simp
  | cons kv rest ih =>
    intro cur h
    have hnd : (cacheKeys rest).Nodup := (List.nodup_cons.mp (by simpa [cacheKeys] using h)).2
    have hnm : kv.1 ∉ cacheKeys rest := (List.nodup_cons.mp (by simpa [cacheKeys] using h)).1
    by_cases hk : kv.1 = cur
    · have hnil : rest.filter (fun kv' => kv'.1 == cur) = [] := by
        rw [List.filter_eq_nil_iff]
        intro kv' hmem
        have : kv'.1 ∈ cacheKeys rest := List.mem_map_of_mem Prod.fst hmem
        simp only [beq_iff_eq]
        intro hc
        exact hnm (by rw [hk, ← hc]; exact this)
      simp [List.filter_cons, hk, hnil]
    · have hbne : (kv.1 == cur) = false := by simpa using hk
      simpa [List.filter_cons, hbne] using ih cur hnd

end CacheLemmas

section MaxByDistLemmas

open DesktopViewer

theorem maxByDist_isSome (cur p : Nat) (rest : List Nat) :
    ∃ b, maxByDist cur (p :: rest) = some b := by
  unfold maxByDist
  cases h : maxByDist cur rest with
  | none => exact ⟨p, rfl⟩
  | some b =>
    by_cases hd : Nat.dist p cur < Nat.dist b cur
    · exact ⟨b, by simp [hd]⟩
    · exact ⟨p, by simp [hd]⟩

theorem maxByDist_mem :
    ∀ (cur : Nat) (ps : List Nat) (b : Nat), maxByDist cur ps = some b → b ∈ ps := by
  intro cur ps
  induction ps with
  | nil => intro b h; simp [maxByDist] at h
  | cons p rest ih =>
    intro b h
    unfold maxByDist at h
    cases h' : maxByDist cur rest with
    | none =>
      rw [h'] at h
      simp at h
      simp [h]
    | some b' =>
      rw [h'] at h
      dsimp only at h
      by_cases hd : Nat.dist p cur < Nat.dist b' cur
      · rw [if_pos hd] at h
        have : b = b' := by simpa using h.symm
        exact List.mem_cons_of_mem p (this ▸ ih b' h')
      · rw [if_neg hd] at h
        have : b = p := by simpa using h.symm
        simp [this]

theorem maxByDist_ge :
    ∀ (cur : Nat) (ps : List Nat) (b : Nat), maxByDist cur ps = some b →
      ∀ q ∈ ps, Nat.dist q cur ≤ Nat.dist b cur := by
  intro cur ps
  induction ps with
  | nil => intro b h; simp [maxByDist] at h
  | cons p rest ih =>
    intro b h q hq
    unfold maxByDist at h
    cases h' : maxByDist cur rest with
    | none =>
      have hrest : rest = [] := by
        cases rest with
        | nil => rfl
        | cons r rr =>
          obtain ⟨b', hb'⟩ := maxByDist_isSome cur r rr
          rw [hb'] at h'
          exact absurd h' (by simp)
      rw [h'] at h
      simp at h
      subst hrest
      have : q = p := by simpa using hq
      simp [this, ← h]
    | some b' =>
      rw [h'] at h
      dsimp only at h
      by_cases hd : Nat.dist p cur < Nat.dist b' cur
      · rw [if_pos hd] at h
        have hb : b = b' := by simpa using h.symm
        subst hb
        rcases List.mem_cons.mp hq with h1 | h1
        · subst h1; exact Nat.le_of_lt hd
        · exact ih b h' q h1
      · rw [if_neg hd] at h
        have hb : b = p := by simpa using h.symm
        subst hb
        rcases List.mem_cons.mp hq with h1 | h1
        · subst h1; exact Nat.le_refl _
        · exact Nat.le_trans (ih b' h' q h1) (Nat.le_of_not_lt hd)

end MaxByDistLemmas

section MergeLemmas

theorem base_mergeLoop_ok (fs : FileSystem) :
    ∀ (files : List PyStr) (acc : List Nat),
      (∀ p ∈ files, fs.pathExists p = true) →
      PDFFileManager.mergeLoop fs files acc = .ok (acc ++ (files.map fs.pages).flatten) := by
  intro files
  induction files with
  | nil => intro acc _; simp [PDFFileManager.mergeLoop]
  | cons p rest ih =>
    intro acc h
    have hp : fs.pathExists p = true := h p (List.mem_cons_self p rest)
    unfold PDFFileManager.mergeLoop
    rw [hp]
    simp only [Bool.not_true, Bool.false_eq_true, if_false]
    rw [ih (acc ++ fs.pages p) (fun q hq => h q (List.mem_cons_of_mem p hq))]
    simp [List.append_assoc]

theorem desktop_mergeLoop_ok (fs : FileSystem) :
    ∀ (files : List PyStr) (acc : List Nat),
      (∀ p ∈ files, fs.pathExists p = true) →
      DesktopPDFFileManager.mergeLoop fs files acc = .ok (acc ++ (files.map fs.pages).flatten) := by
  intro files
  induction files with
  | nil => intro acc _; simp [DesktopPDFFileManager.mergeLoop]
  | cons p rest ih =>
    intro acc h
    have hp : fs.pathExists p = true := h p (List.mem_cons_self p rest)
    unfold DesktopPDFFileManager.mergeLoop
    rw [hp]
    simp only [Bool.not_true, Bool.false_eq_true, if_false]
    rw [ih (acc ++ fs.pages p) (fun q hq => h q (List.mem_cons_of_mem p hq))]
    simp [List.append_assoc]

theorem base_mergeLoop_error (fs : FileSystem) :
    ∀ (files : List PyStr) (acc : List Nat) (resp : FileOperationResponse),
      PDFFileManager.mergeLoop fs files acc = .error resp →
      resp.result = .error := by
  intro files
  induction files with
  | nil => intro acc resp h; simp [PDFFileManager.mergeLoop] at h
  | cons p rest ih =>
    intro acc resp h
    unfold PDFFileManager.mergeLoop at h
    split at h
    · have : resp = ⟨.error, "File not found: " ++ String.mk (basename p)⟩ := by
        simpa using h.symm
      rw [this]
    · exact ih _ resp h

theorem desktop_mergeLoop_error (fs : FileSystem) :
    ∀ (files : List PyStr) (acc : List Nat) (resp : FileOperationResponse),
      DesktopPDFFileManager.mergeLoop fs files acc = .error resp →
      resp.result = .error := by
  intro files
  induction files with
  | nil => intro acc resp h; simp [DesktopPDFFileManager.mergeLoop] at h
  | cons p rest ih =>
    intro acc resp h
    unfold DesktopPDFFileManager.mergeLoop at h
    split at h
    · have : resp = ⟨.error, "Missing: " ++ String.mk (basename p)⟩ := by
        simpa using h.symm
      rw [this]
    · exact ih _ resp h

theorem mobile_mergeLoop_error (fs : FileSystem) :
    ∀ (files : List PyStr) (acc : List Nat) (resp : FileOperationResponse),
      MobilePDFFileManager.mergeLoop fs files acc = .error resp →
      resp.result = .error ∨ resp.result = .permission_denied := by
  intro files
  induction files with
  | nil => intro acc resp h; simp [MobilePDFFileManager.mergeLoop] at h
  | cons p rest ih =>
    intro acc resp h
    unfold MobilePDFFileManager.mergeLoop at h
    split at h
    · have : resp = ⟨.error, "File missing: " ++ String.mk (basename p)⟩ := by
        simpa using h.symm
      rw [this]
      exact Or.inl rfl
    split at h
    · have : resp = ⟨.permission_denied, "No access to: " ++ String.mk (basename p)⟩ := by
        simpa using h.symm
      rw [this]
      exact Or.inr rfl
    · exact ih _ resp h

end MergeLemmas

section AddFilesLemmas

theorem base_add_files_state (fs : FileSystem) (s : ManagerState) (ps : List PyStr) :
    (PDFFileManager.add_files fs s ps).2.1 =
      if ps.isEmpty then s
      else { s with selected_files :=
        (ps.foldl (PDFFileManager.addStep fs) ⟨s.selected_files, [], []⟩).files } := by
  unfold PDFFileManager.add_files
  split
  · rfl
  · dsimp only
    split
    · rfl
    split
    · rfl
    · rfl

theorem base_add_files_events (fs : FileSystem) (s : ManagerState) (ps : List PyStr) :
    (PDFFileManager.add_files fs s ps).2.2 =
      if ps.isEmpty then []
      else PDFFileManager.notify_observers { s with selected_files :=
        (ps.foldl (PDFFileManager.addStep fs) ⟨s.selected_files, [], []⟩).files } := by
  unfold PDFFileManager.add_files
  split
  · rfl
  · dsimp only
    split
    · rfl
    split
    · rfl
    · rfl

theorem base_add_files_result (fs : FileSystem) (s : ManagerState) (ps : List PyStr) :
    (PDFFileManager.add_files fs s ps).1.result = .success ∨
    (PDFFileManager.add_files fs s ps).1.result = .error := by
  unfold PDFFileManager.add_files
  split
  · exact Or.inr rfl
  · dsimp only
    split
    · exact Or.inl rfl
    split
    · exact Or.inl rfl
    · exact Or.inr rfl

theorem desktop_add_files_state (fs : FileSystem) (s : ManagerState) (ps : List PyStr) :
    (DesktopPDFFileManager.add_files fs s ps).2.1 =
      if ps.isEmpty then s
      else { s with selected_files :=
        (ps.foldl (DesktopPDFFileManager.addStep fs) ⟨s.selected_files, [], []⟩).files } := by
  unfold DesktopPDFFileManager.add_files
  split
  · rfl
  · dsimp only
    split
    · rfl
    split
    · rfl
    · rfl

theorem desktop_add_files_events (fs : FileSystem) (s : ManagerState) (ps : List PyStr) :
    (DesktopPDFFileManager.add_files fs s ps).2.2 =
      if ps.isEmpty then []
      else if !(ps.foldl (DesktopPDFFileManager.addStep fs) ⟨s.selected_files, [], []⟩).added.isEmpty
      then DesktopPDFFileManager.notify_file_list_observers { s with selected_files :=
        (ps.foldl (DesktopPDFFileManager.addStep fs) ⟨s.selected_files, [], []⟩).files }
      else [] := by
  unfold DesktopPDFFileManager.add_files
  split
  · rfl
  · dsimp only
    split
    · rfl
    split
    · rfl
    · rfl

theorem desktop_add_files_result (fs : FileSystem) (s : ManagerState) (ps : List PyStr) :
    (DesktopPDFFileManager.add_files fs s ps).1.result = .success ∨
    (DesktopPDFFileManager.add_files fs s ps).1.result = .error := by
  unfold DesktopPDFFileManager.add_files
  split
  · exact Or.inr rfl
  · dsimp only
    split
    · exact Or.inl rfl
    split
    · exact Or.inl rfl
    · exact Or.inr rfl

theorem mobile_add_files_state (fs : FileSystem) (s : ManagerState) (ps : List PyStr) :
    (MobilePDFFileManager.add_files fs s ps).2.1 =
      if ps.isEmpty then s
      else { s with selected_files :=
        (ps.foldl (MobilePDFFileManager.addStep fs) ⟨s.selected_files, [], []⟩).files } := by
  unfold MobilePDFFileManager.add_files
  split
  · rfl
  · dsimp only
    split
    · rfl
    split
    · rfl
    · rfl

theorem mobile_add_files_events (fs : FileSystem) (s : ManagerState) (ps : List PyStr) :
    (MobilePDFFileManager.add_files fs s ps).2.2 =
      if ps.isEmpty then []
      else if !(ps.foldl (MobilePDFFileManager.addStep fs) ⟨s.selected_files, [], []⟩).added.isEmpty
      then MobilePDFFileManager.notify_file_list_observers { s with selected_files :=
        (ps.foldl (MobilePDFFileManager.addStep fs) ⟨s.selected_files, [], []⟩).files }
      else [] := by
  unfold MobilePDFFileManager.add_files
  split
  · rfl
  · dsimp only
    split
    · rfl
    split
    · rfl
    · rfl

theorem mobile_add_files_result (fs : FileSystem) (s : ManagerState) (ps : List PyStr) :
    (MobilePDFFileManager.add_files fs s ps).1.result = .success ∨
    (MobilePDFFileManager.add_files fs s ps).1.result = .error := by
  unfold MobilePDFFileManager.add_files
  split
  · exact Or.inr rfl
  · dsimp only
    split
    · exact Or.inl rfl
    split
    · exact Or.inl rfl
    · exact Or.inr rfl

end AddFilesLemmas

section MoveLemmas

/-- Unfolds `pyInsert` and packages the permutation/length facts about
the `pop`/`insert` pair used by `move_file`, for valid indices. -/
theorem pyMove_spec (l : List PyStr) (i j : Int)
    (h : 0 ≤ i ∧ i < (l.length : Int) ∧ 0 ≤ j ∧ j < (l.length : Int)) :
    pyInsert (l.eraseIdx i.toNat) j.toNat ((l[i.toNat]?).getD []) =
      (l.eraseIdx i.toNat).insertIdx j.toNat ((l[i.toNat]?).getD []) ∧
    List.Perm ((l.eraseIdx i.toNat).insertIdx j.toNat ((l[i.toNat]?).getD [])) l ∧
    ((l.eraseIdx i.toNat).insertIdx j.toNat ((l[i.toNat]?).getD [])).length = l.length := by
  obtain ⟨h1, h2, h3, h4⟩ := h
  have hi : i.toNat < l.length := by omega
  have hj : j.toNat < l.length := by omega
  have hx : (l[i.toNat]?).getD [] = l[i.toNat] := by
    rw [List.getElem?_eq_getElem hi]
    rfl
  have hlen : (l.eraseIdx i.toNat).length + 1 = l.length := List.length_eraseIdx_add_one hi
  have hjle : j.toNat ≤ (l.eraseIdx i.toNat).length := by omega
  have hins : List.Perm ((l.eraseIdx i.toNat).insertIdx j.toNat ((l[i.toNat]?).getD []))
      (((l[i.toNat]?).getD []) :: l.eraseIdx i.toNat) :=
    List.perm_insertIdx _ _ hjle
  have hperm : List.Perm ((l.eraseIdx i.toNat).insertIdx j.toNat ((l[i.toNat]?).getD [])) l := by
    refine hins.trans ?_
    rw [hx]
    exact cons_getElem_eraseIdx_perm l i.toNat hi
  refine ⟨?_, hperm, hperm.length_eq⟩
  unfold pyInsert
  rw [if_neg (by omega)]

end MoveLemmas

section NodupPreservation

theorem base_applyOp_nodup (fs : FileSystem) (s : ManagerState) (op : Op)
    (h : s.selected_files.Nodup) :
    ((PDFFileManager.applyOp fs s op).2.1.selected_files).Nodup := by
  cases op with
  | addFiles ps =>
    show ((PDFFileManager.add_files fs s ps).2.1.selected_files).Nodup
    rw [base_add_files_state]
    split
    · exact h
    · exact foldl_step_nodup (stepOk_base fs) ps ⟨s.selected_files, [], []⟩ h
  | removeFile i =>
    show ((PDFFileManager.remove_file s i).2.1.selected_files).Nodup
    unfold PDFFileManager.remove_file
    split
    · exact h
    · exact h.sublist (List.eraseIdx_sublist _ _)
  | moveFile i j =>
    show ((PDFFileManager.move_file s i j).2.1.selected_files).Nodup
    unfold PDFFileManager.move_file
    split
    · exact h
    · rename_i hg
      have hg' := Decidable.not_not.mp hg
      obtain ⟨hpy, hperm, _⟩ := pyMove_spec s.selected_files i j hg'
      dsimp only
      rw [hpy]
      exact hperm.symm.nodup h
  | clearFiles =>
    show ((PDFFileManager.clear_files s).2.1.selected_files).Nodup
    exact List.nodup_nil

theorem desktop_applyOp_nodup (fs : FileSystem) (s : ManagerState) (op : Op)
    (h : s.selected_files.Nodup) :
    ((DesktopPDFFileManager.applyOp fs s op).2.1.selected_files).Nodup := by
  cases op with
  | addFiles ps =>
    show ((DesktopPDFFileManager.add_files fs s ps).2.1.selected_files).Nodup
    rw [desktop_add_files_state]
    split
    · exact h
    · exact foldl_step_nodup (stepOk_desktop fs) ps ⟨s.selected_files, [], []⟩ h
  | removeFile i =>
    show ((DesktopPDFFileManager.remove_file s i).2.1.selected_files).Nodup
    unfold DesktopPDFFileManager.remove_file
    split
    · exact h
    · exact h.sublist (List.eraseIdx_sublist _ _)
  | moveFile i j =>
    show ((DesktopPDFFileManager.move_file s i j).2.1.selected_files).Nodup
    unfold DesktopPDFFileManager.move_file
    split
    · exact h
    · rename_i hg
      have hg' := Decidable.not_not.mp hg
      obtain ⟨hpy, hperm, _⟩ := pyMove_spec s.selected_files i j hg'
      dsimp only
      rw [hpy]
      exact hperm.symm.nodup h
  | clearFiles =>
    show ((DesktopPDFFileManager.clear_files s).2.1.selected_files).Nodup
    exact List.nodup_nil

theorem mobile_applyOp_nodup (fs : FileSystem) (s : ManagerState) (op : Op)
    (h : s.selected_files.Nodup) :
    ((MobilePDFFileManager.applyOp fs s op).2.1.selected_files).Nodup := by
  cases op with
  | addFiles ps =>
    show ((MobilePDFFileManager.add_files fs s ps).2.1.selected_files).Nodup
    rw [mobile_add_files_state]
    split
    · exact h
    · exact foldl_step_nodup (stepOk_mobile fs) ps ⟨s.selected_files, [], []⟩ h
  | removeFile i =>
    show ((MobilePDFFileManager.remove_file s i).2.1.selected_files).Nodup
    unfold MobilePDFFileManager.remove_file
    split
    · exact h
    · exact h.sublist (List.eraseIdx_sublist _ _)
  | moveFile i j =>
    show ((MobilePDFFileManager.move_file s i j).2.1.selected_files).Nodup
    unfold MobilePDFFileManager.move_file
    split
    · exact h
    · rename_i hg
      have hg' := Decidable.not_not.mp hg
      obtain ⟨hpy, hperm, _⟩ := pyMove_spec s.selected_files i j hg'
      dsimp only
      rw [hpy]
      exact hperm.symm.nodup h
  | clearFiles =>
    show ((MobilePDFFileManager.clear_files s).2.1.selected_files).Nodup
    exact List.nodup_nil

theorem base_runOps_nodup (fs : FileSystem) :
    ∀ (ops : List Op) (s : ManagerState), s.selected_files.Nodup →
      ((PDFFileManager.runOps fs s ops).selected_files).Nodup := by
  intro ops
  induction ops with
  | nil => intro s h; exact h
  | cons op rest ih =>
    intro s h
    exact ih _ (base_applyOp_nodup fs s op h)

theorem desktop_runOps_nodup (fs : FileSystem) :
    ∀ (ops : List Op) (s : ManagerState), s.selected_files.Nodup →
      ((DesktopPDFFileManager.runOps fs s ops).selected_files).Nodup := by
  intro ops
  induction ops with
  | nil => intro s h; exact h
  | cons op rest ih =>
    intro s h
    exact ih _ (desktop_applyOp_nodup fs s op h)

theorem mobile_runOps_nodup (fs : FileSystem) :
    ∀ (ops : List Op) (s : ManagerState), s.selected_files.Nodup →
      ((MobilePDFFileManager.runOps fs s ops).selected_files).Nodup := by
  intro ops
  induction ops with
  | nil => intro s h; exact h
  | cons op rest ih =>
    intro s h
    exact ih _ (mobile_applyOp_nodup fs s op h)

end NodupPreservation

/-- C1: Starting from an empty manager, after any sequence of
`add_files`, `remove_file`, `move_file`, and `clear_files` calls (in any
of the three manager variants, against any file system), the
`selected_files` list contains no path twice; in particular `add_files`
only appends paths that pass its not-already-present check. -/
theorem tetra_C1_no_duplicate_paths (fs : FileSystem) (obs : List Nat) (ops : List Op) :
    ((PDFFileManager.runOps fs ⟨[], obs⟩ ops).selected_files).Nodup ∧
    ((DesktopPDFFileManager.runOps fs ⟨[], obs⟩ ops).selected_files).Nodup ∧
    ((MobilePDFFileManager.runOps fs ⟨[], obs⟩ ops).selected_files).Nodup :=
  ⟨base_runOps_nodup fs ops ⟨[], obs⟩ List.nodup_nil,
   desktop_runOps_nodup fs ops ⟨[], obs⟩ List.nodup_nil,
   mobile_runOps_nodup fs ops ⟨[], obs⟩ List.nodup_nil⟩

/-- C6: In the base and desktop managers, `move_file` with an index pair
where either index is outside `[0, len)` returns an error and leaves the
state unchanged; with valid indices it returns success and the new list
is the old list with the element at `from_index` removed and reinserted
at `to_index` — a permutation of the old list of the same length. -/
theorem tetra_C6_move_file (s : ManagerState) (from_index to_index : Int) :
    ((¬(0 ≤ from_index ∧ from_index < (s.selected_files.length : Int) ∧
        0 ≤ to_index ∧ to_index < (s.selected_files.length : Int)) →
      (PDFFileManager.move_file s from_index to_index).1.result = .error ∧
      (PDFFileManager.move_file s from_index to_index).2.1 = s) ∧
     ((0 ≤ from_index ∧ from_index < (s.selected_files.length : Int) ∧
        0 ≤ to_index ∧ to_index < (s.selected_files.length : Int)) →
      (PDFFileManager.move_file s from_index to_index).1.result = .success ∧
      (PDFFileManager.move_file s from_index to_index).2.1.selected_files =
        (s.selected_files.eraseIdx from_index.toNat).insertIdx to_index.toNat
          ((s.selected_files[from_index.toNat]?).getD []) ∧
      List.Perm ((PDFFileManager.move_file s from_index to_index).2.1.selected_files)
        s.selected_files ∧
      (PDFFileManager.move_file s from_index to_index).2.1.selected_files.length =
        s.selected_files.length)) ∧
    ((¬(0 ≤ from_index ∧ from_index < (s.selected_files.length : Int) ∧
        0 ≤ to_index ∧ to_index < (s.selected_files.length : Int)) →
      (DesktopPDFFileManager.move_file s from_index to_index).1.result = .error ∧
      (DesktopPDFFileManager.move_file s from_index to_index).2.1 = s) ∧
     ((0 ≤ from_index ∧ from_index < (s.selected_files.length : Int) ∧
        0 ≤ to_index ∧ to_index < (s.selected_files.length : Int)) →
      (DesktopPDFFileManager.move_file s from_index to_index).1.result = .success ∧
      (DesktopPDFFileManager.move_file s from_index to_index).2.1.selected_files =
        (s.selected_files.eraseIdx from_index.toNat).insertIdx to_index.toNat
          ((s.selected_files[from_index.toNat]?).getD []) ∧
      List.Perm ((DesktopPDFFileManager.move_file s from_index to_index).2.1.selected_files)
        s.selected_files ∧
      (DesktopPDFFileManager.move_file s from_index to_index).2.1.selected_files.length =
        s.selected_files.length)) := by
  constructor
  · constructor
    · intro hg
      unfold PDFFileManager.move_file
      rw [if_pos hg]
      exact ⟨rfl, rfl⟩
    · intro hg
      obtain ⟨hpy, hperm, hlen⟩ := pyMove_spec s.selected_files from_index to_index hg
      unfold PDFFileManager.move_file
      rw [if_neg (Decidable.not_not.mpr hg)]
      dsimp only
      rw [hpy]
      exact ⟨rfl, rfl, hperm, hlen⟩
  · constructor
    · intro hg
      unfold DesktopPDFFileManager.move_file
      rw [if_pos hg]
      exact ⟨rfl, rfl⟩
    · intro hg
      obtain ⟨hpy, hperm, hlen⟩ := pyMove_spec s.selected_files from_index to_index hg
      unfold DesktopPDFFileManager.move_file
      rw [if_neg (Decidable.not_not.mpr hg)]
      dsimp only
      rw [hpy]
      exact ⟨rfl, rfl, hperm, hlen⟩

/-- Witness for C6: moving index 0 to index 2 in a three-element list
succeeds and rotates the elements; an out-of-range index is rejected. -/
theorem tetra_C6_move_file_witness :
    (PDFFileManager.move_file ⟨[['a'], ['b'], ['c']], []⟩ 0 2).1.result = .success ∧
    (PDFFileManager.move_file ⟨[['a'], ['b'], ['c']], []⟩ 0 2).2.1.selected_files =
      [['b'], ['c'], ['a']] ∧
    (DesktopPDFFileManager.move_file ⟨[['a'], ['b']], []⟩ (-1) 0).1.result = .error := by
  refine ⟨?_, ?_, ?_⟩
  · exact ((tetra_C6_move_file ⟨[['a'], ['b'], ['c']], []⟩ 0 2).1.2 (by decide)).1
  · have h := ((tetra_C6_move_file ⟨[['a'], ['b'], ['c']], []⟩ 0 2).1.2 (by decide)).2.1
    rw [h]
    decide
  · exact ((tetra_C6_move_file ⟨[['a'], ['b']], []⟩ (-1) 0).2.1 (by decide)).1

/-- C8: In the base and desktop managers, `remove_file` returns an error
exactly when the index is outside `[0, len)`, leaving the file list and
the registered observers unchanged; on a valid index it returns success,
the new list is the erasure at that index (so the length drops by one
and the other elements keep their relative order), and the observers are
unchanged. -/
theorem tetra_C8_remove_file (s : ManagerState) (index : Int) :
    ((¬(0 ≤ index ∧ index < (s.selected_files.length : Int)) →
      (PDFFileManager.remove_file s index).1.result = .error ∧
      (PDFFileManager.remove_file s index).2.1 = s) ∧
     ((0 ≤ index ∧ index < (s.selected_files.length : Int)) →
      (PDFFileManager.remove_file s index).1.result = .success ∧
      (PDFFileManager.remove_file s index).2.1.selected_files =
        s.selected_files.eraseIdx index.toNat ∧
      (PDFFileManager.remove_file s index).2.1.selected_files.length + 1 =
        s.selected_files.length ∧
      (PDFFileManager.remove_file s index).2.1.observers = s.observers)) ∧
    ((¬(0 ≤ index ∧ index < (s.selected_files.length : Int)) →
      (DesktopPDFFileManager.remove_file s index).1.result = .error ∧
      (DesktopPDFFileManager.remove_file s index).2.1 = s) ∧
     ((0 ≤ index ∧ index < (s.selected_files.length : Int)) →
      (DesktopPDFFileManager.remove_file s index).1.result = .success ∧
      (DesktopPDFFileManager.remove_file s index).2.1.selected_files =
        s.selected_files.eraseIdx index.toNat ∧
      (DesktopPDFFileManager.remove_file s index).2.1.selected_files.length + 1 =
        s.selected_files.length ∧
      (DesktopPDFFileManager.remove_file s index).2.1.observers = s.observers)) := by
  constructor
  · constructor
    · intro hg
      unfold PDFFileManager.remove_file
      rw [if_pos hg]
      exact ⟨rfl, rfl⟩
    · intro hg
      have hi : index.toNat < s.selected_files.length := by omega
      unfold PDFFileManager.remove_file
      rw [if_neg (Decidable.not_not.mpr hg)]
      exact ⟨rfl, rfl, List.length_eraseIdx_add_one hi, rfl⟩
  · constructor
    · intro hg
      unfold DesktopPDFFileManager.remove_file
      rw [if_pos hg]
      exact ⟨rfl, rfl⟩
    · intro hg
      have hi : index.toNat < s.selected_files.length := by omega
      unfold DesktopPDFFileManager.remove_file
      rw [if_neg (Decidable.not_not.mpr hg)]
      exact ⟨rfl, rfl, List.length_eraseIdx_add_one hi, rfl⟩

/-- Witness for C8: removing index 1 of a two-element list succeeds and
erases that element; index 2 (and a negative index) are rejected with
the state unchanged. -/
theorem tetra_C8_remove_file_witness :
    (PDFFileManager.remove_file ⟨[['a'], ['b']], [7]⟩ 1).1.result = .success ∧
    (PDFFileManager.remove_file ⟨[['a'], ['b']], [7]⟩ 1).2.1.selected_files = [['a']] ∧
    (DesktopPDFFileManager.remove_file ⟨[['a'], ['b']], [7]⟩ 2).1.result = .error ∧
    (DesktopPDFFileManager.remove_file ⟨[['a'], ['b']], [7]⟩ 2).2.1 =
      (⟨[['a'], ['b']], [7]⟩ : ManagerState) := by
  refine ⟨?_, ?_, ?_, ?_⟩
  · exact ((tetra_C8_remove_file ⟨[['a'], ['b']], [7]⟩ 1).1.2 (by decide)).1
  · have h := ((tetra_C8_remove_file ⟨[['a'], ['b']], [7]⟩ 1).1.2 (by decide)).2.1
    rw [h]
    decide
  · exact ((tetra_C8_remove_file ⟨[['a'], ['b']], [7]⟩ 2).2.1 (by decide)).1
  · exact ((tetra_C8_remove_file ⟨[['a'], ['b']], [7]⟩ 2).2.1 (by decide)).2

/-- C9: In each of the three manager variants, `merge_pdfs` with fewer
than 2 selected files returns an error response without attempting any
merge (no output is produced), and the state is unchanged — whether or
not the PDF library is available. -/
theorem tetra_C9_merge_min_files (libAvailable : Bool) (fs : FileSystem)
    (s : ManagerState) (output_path : PyStr)
    (h : s.selected_files.length < 2) :
    ((PDFFileManager.merge_pdfs libAvailable fs s output_path).1.result = .error ∧
     (PDFFileManager.merge_pdfs libAvailable fs s output_path).2.1 = s ∧
     (PDFFileManager.merge_pdfs libAvailable fs s output_path).2.2 = none) ∧
    ((DesktopPDFFileManager.merge_pdfs libAvailable fs s output_path).1.result = .error ∧
     (DesktopPDFFileManager.merge_pdfs libAvailable fs s output_path).2.1 = s ∧
     (DesktopPDFFileManager.merge_pdfs libAvailable fs s output_path).2.2 = none) ∧
    ((MobilePDFFileManager.merge_pdfs libAvailable fs s output_path).1.result = .error ∧
     (MobilePDFFileManager.merge_pdfs libAvailable fs s output_path).2.1 = s ∧
     (MobilePDFFileManager.merge_pdfs libAvailable fs s output_path).2.2 = none) := by
  refine ⟨?_, ?_, ?_⟩
  · unfold PDFFileManager.merge_pdfs
    split
    · exact ⟨rfl, rfl, rfl⟩
    · exact ⟨rfl, rfl, rfl⟩
  · unfold DesktopPDFFileManager.merge_pdfs
    split
    · exact ⟨rfl, rfl, rfl⟩
    · exact ⟨rfl, rfl, rfl⟩
  · unfold MobilePDFFileManager.merge_pdfs
    split
    · exact ⟨rfl, rfl, rfl⟩
    · exact ⟨rfl, rfl, rfl⟩

/-- Witness for C9: a manager holding a single file refuses to merge in
all three variants. -/
theorem tetra_C9_merge_min_files_witness :
    (PDFFileManager.merge_pdfs true ⟨fun _ => true, fun _ => true, fun _ => true,
      fun _ => true, fun _ => []⟩ ⟨[['a']], []⟩ ['o']).1.result = .error ∧
    (DesktopPDFFileManager.merge_pdfs true ⟨fun _ => true, fun _ => true, fun _ => true,
      fun _ => true, fun _ => []⟩ ⟨[['a']], []⟩ ['o']).1.result = .error ∧
    (MobilePDFFileManager.merge_pdfs true ⟨fun _ => true, fun _ => true, fun _ => true,
      fun _ => true, fun _ => []⟩ ⟨[['a']], []⟩ ['o']).1.result = .error := by
  have h := tetra_C9_merge_min_files true ⟨fun _ => true, fun _ => true, fun _ => true,
    fun _ => true, fun _ => []⟩ ⟨[['a']], []⟩ ['o'] (by decide)
  exact ⟨h.1.1, h.2.1.1, h.2.2.1⟩

/-- C5: In the base and desktop managers, when the PDF library is
available, at least 2 files are selected and every selected file exists,
`merge_pdfs` returns success, the output document's page sequence is the
concatenation of the selected files' page sequences in list order, and
the selected-file state is unchanged.  (The page semantics of the
third-party merge call is modelled from the spec's glossary.) -/
theorem tetra_C5_merge_concatenation (fs : FileSystem) (s : ManagerState)
    (output_path : PyStr)
    (h2 : 2 ≤ s.selected_files.length)
    (hex : ∀ p ∈ s.selected_files, fs.pathExists p = true) :
    ((PDFFileManager.merge_pdfs true fs s output_path).1.result = .success ∧
     (PDFFileManager.merge_pdfs true fs s output_path).2.2 =
       some ((s.selected_files.map fs.pages).flatten) ∧
     (PDFFileManager.merge_pdfs true fs s output_path).2.1 = s) ∧
    ((DesktopPDFFileManager.merge_pdfs true fs s output_path).1.result = .success ∧
     (DesktopPDFFileManager.merge_pdfs true fs s output_path).2.2 =
       some ((s.selected_files.map fs.pages).flatten) ∧
     (DesktopPDFFileManager.merge_pdfs true fs s output_path).2.1 = s) := by
  constructor
  · unfold PDFFileManager.merge_pdfs
    rw [if_neg (by simp)]
    rw [if_neg (by omega)]
    rw [base_mergeLoop_ok fs s.selected_files [] hex]
    exact ⟨rfl, by simp, rfl⟩
  · unfold DesktopPDFFileManager.merge_pdfs
    rw [if_neg (by simp)]
    rw [if_neg (by omega)]
    rw [desktop_mergeLoop_ok fs s.selected_files [] hex]
    exact ⟨rfl, by simp, rfl⟩

/-- Witness for C5: merging two existing files whose page sequences are
`[1, 2]` and `[3]` yields the page sequence `[1, 2, 3]` in both
variants. -/
theorem tetra_C5_merge_concatenation_witness :
    (PDFFileManager.merge_pdfs true
      ⟨fun _ => true, fun _ => true, fun _ => true, fun _ => true,
       fun p => if p == ['a'] then [1, 2] else [3]⟩
      ⟨[['a'], ['b']], []⟩ ['o']).2.2 = some [1, 2, 3] ∧
    (DesktopPDFFileManager.merge_pdfs true
      ⟨fun _ => true, fun _ => true, fun _ => true, fun _ => true,
       fun p => if p == ['a'] then [1, 2] else [3]⟩
      ⟨[['a'], ['b']], []⟩ ['o']).2.2 = some [1, 2, 3] := by
  have h := tetra_C5_merge_concatenation
    ⟨fun _ => true, fun _ => true, fun _ => true, fun _ => true,
     fun p => if p == ['a'] then [1, 2] else [3]⟩
    ⟨[['a'], ['b']], []⟩ ['o'] (by decide) (by decide)
  constructor
  · rw [h.1.2.1]
    decide
  · rw [h.2.2.1]
    decide

section ResultTaxonomyLemmas

theorem base_remove_file_result (s : ManagerState) (i : Int) :
    (PDFFileManager.remove_file s i).1.result = .success ∨
    (PDFFileManager.remove_file s i).1.result = .error := by
  unfold PDFFileManager.remove_file
  split
  · exact Or.inr rfl
  · exact Or.inl rfl

theorem desktop_remove_file_result (s : ManagerState) (i : Int) :
    (DesktopPDFFileManager.remove_file s i).1.result = .success ∨
    (DesktopPDFFileManager.remove_file s i).1.result = .error := by
  unfold DesktopPDFFileManager.remove_file
  split
  · exact Or.inr rfl
  · exact Or.inl rfl

theorem mobile_remove_file_result (s : ManagerState) (i : Int) :
    (MobilePDFFileManager.remove_file s i).1.result = .success ∨
    (MobilePDFFileManager.remove_file s i).1.result = .error := by
  unfold MobilePDFFileManager.remove_file
  split
  · exact Or.inr rfl
  · exact Or.inl rfl

theorem base_move_file_result (s : ManagerState) (i j : Int) :
    (PDFFileManager.move_file s i j).1.result = .success ∨
    (PDFFileManager.move_file s i j).1.result = .error := by
  unfold PDFFileManager.move_file
  split
  · exact Or.inr rfl
  · exact Or.inl rfl

theorem desktop_move_file_result (s : ManagerState) (i j : Int) :
    (DesktopPDFFileManager.move_file s i j).1.result = .success ∨
    (DesktopPDFFileManager.move_file s i j).1.result = .error := by
  unfold DesktopPDFFileManager.move_file
  split
  · exact Or.inr rfl
  · exact Or.inl rfl

theorem mobile_move_file_result (s : ManagerState) (i j : Int) :
    (MobilePDFFileManager.move_file s i j).1.result = .success ∨
    (MobilePDFFileManager.move_file s i j).1.result = .error := by
  unfold MobilePDFFileManager.move_file
  split
  · exact Or.inr rfl
  · exact Or.inl rfl

theorem base_merge_pdfs_result (lib : Bool) (fs : FileSystem) (s : ManagerState) (o : PyStr) :
    (PDFFileManager.merge_pdfs lib fs s o).1.result = .success ∨
    (PDFFileManager.merge_pdfs lib fs s o).1.result = .error := by
  unfold PDFFileManager.merge_pdfs
  split
  · exact Or.inr rfl
  split
  · exact Or.inr rfl
  split
  · rename_i resp heq
    exact Or.inr (base_mergeLoop_error fs s.selected_files [] resp heq)
  · exact Or.inl rfl

theorem desktop_merge_pdfs_result (lib : Bool) (fs : FileSystem) (s : ManagerState) (o : PyStr) :
    (DesktopPDFFileManager.merge_pdfs lib fs s o).1.result = .success ∨
    (DesktopPDFFileManager.merge_pdfs lib fs s o).1.result = .error := by
  unfold DesktopPDFFileManager.merge_pdfs
  split
  · exact Or.inr rfl
  split
  · exact Or.inr rfl
  split
  · rename_i resp heq
    exact Or.inr (desktop_mergeLoop_error fs s.selected_files [] resp heq)
  · exact Or.inl rfl

theorem mobile_merge_pdfs_result (lib : Bool) (fs : FileSystem) (s : ManagerState) (o : PyStr) :
    (MobilePDFFileManager.merge_pdfs lib fs s o).1.result = .success ∨
    (MobilePDFFileManager.merge_pdfs lib fs s o).1.result = .error ∨
    (MobilePDFFileManager.merge_pdfs lib fs s o).1.result = .permission_denied := by
  unfold MobilePDFFileManager.merge_pdfs
  split
  · exact Or.inr (Or.inl rfl)
  split
  · exact Or.inr (Or.inl rfl)
  split
  · exact Or.inr (Or.inr rfl)
  split
  · rename_i resp heq
    rcases mobile_mergeLoop_error fs s.selected_files [] resp heq with h | h
    · exact Or.inr (Or.inl h)
    · exact Or.inr (Or.inr h)
  · exact Or.inl rfl

theorem base_clear_files_result (s : ManagerState) :
    (PDFFileManager.clear_files s).1.result = .success := rfl

theorem desktop_clear_files_result (s : ManagerState) :
    (DesktopPDFFileManager.clear_files s).1.result = .success := rfl

theorem mobile_clear_files_result (s : ManagerState) :
    (MobilePDFFileManager.clear_files s).1.result = .success := rfl

end ResultTaxonomyLemmas

/-- C3 counterexample: the mobile manager's `merge_pdfs`, with two
selected files, the library available, and no write access to the output
directory, returns `PERMISSION_DENIED` — a fourth outcome outside
success/error/cancelled, so the claim that every file-manager operation
returns one of exactly three outcomes is false. -/
theorem tetra_C3_counterexample :
    (MobilePDFFileManager.merge_pdfs true
      ⟨fun _ => true, fun _ => true, fun _ => true, fun _ => false, fun _ => []⟩
      ⟨[['a'], ['b']], []⟩ ['o']).1.result = .permission_denied ∧
    ¬((MobilePDFFileManager.merge_pdfs true
      ⟨fun _ => true, fun _ => true, fun _ => true, fun _ => false, fun _ => []⟩
      ⟨[['a'], ['b']], []⟩ ['o']).1.result = .success ∨
      (MobilePDFFileManager.merge_pdfs true
      ⟨fun _ => true, fun _ => true, fun _ => true, fun _ => false, fun _ => []⟩
      ⟨[['a'], ['b']], []⟩ ['o']).1.result = .error ∨
      (MobilePDFFileManager.merge_pdfs true
      ⟨fun _ => true, fun _ => true, fun _ => true, fun _ => false, fun _ => []⟩
      ⟨[['a'], ['b']], []⟩ ['o']).1.result = .cancelled) := by
  decide

/-- C3 (amended): every response of the base and desktop managers'
operations (`add_files`, `remove_file`, `clear_files`, `move_file`,
`merge_pdfs`) has a result among success/error/cancelled (in fact only
success and error are ever produced), as do the mobile manager's list
operations; the mobile `merge_pdfs` draws from the four-outcome set that
additionally contains `permission_denied`. -/
theorem tetra_C3_result_taxonomy (lib : Bool) (fs : FileSystem) (s : ManagerState)
    (ps : List PyStr) (i j : Int) (o : PyStr) :
    ((PDFFileManager.add_files fs s ps).1.result = .success ∨
     (PDFFileManager.add_files fs s ps).1.result = .error ∨
     (PDFFileManager.add_files fs s ps).1.result = .cancelled) ∧
    ((PDFFileManager.remove_file s i).1.result = .success ∨
     (PDFFileManager.remove_file s i).1.result = .error ∨
     (PDFFileManager.remove_file s i).1.result = .cancelled) ∧
    ((PDFFileManager.clear_files s).1.result = .success ∨
     (PDFFileManager.clear_files s).1.result = .error ∨
     (PDFFileManager.clear_files s).1.result = .cancelled) ∧
    ((PDFFileManager.move_file s i j).1.result = .success ∨
     (PDFFileManager.move_file s i j).1.result = .error ∨
     (PDFFileManager.move_file s i j).1.result = .cancelled) ∧
    ((PDFFileManager.merge_pdfs lib fs s o).1.result = .success ∨
     (PDFFileManager.merge_pdfs lib fs s o).1.result = .error ∨
     (PDFFileManager.merge_pdfs lib fs s o).1.result = .cancelled) ∧
    ((DesktopPDFFileManager.add_files fs s ps).1.result = .success ∨
     (DesktopPDFFileManager.add_files fs s ps).1.result = .error ∨
     (DesktopPDFFileManager.add_files fs s ps).1.result = .cancelled) ∧
    ((DesktopPDFFileManager.remove_file s i).1.result = .success ∨
     (DesktopPDFFileManager.remove_file s i).1.result = .error ∨
     (DesktopPDFFileManager.remove_file s i).1.result = .cancelled) ∧
    ((DesktopPDFFileManager.clear_files s).1.result = .success ∨
     (DesktopPDFFileManager.clear_files s).1.result = .error ∨
     (DesktopPDFFileManager.clear_files s).1.result = .cancelled) ∧
    ((DesktopPDFFileManager.move_file s i j).1.result = .success ∨
     (DesktopPDFFileManager.move_file s i j).1.result = .error ∨
     (DesktopPDFFileManager.move_file s i j).1.result = .cancelled) ∧
    ((DesktopPDFFileManager.merge_pdfs lib fs s o).1.result = .success ∨
     (DesktopPDFFileManager.merge_pdfs lib fs s o).1.result = .error ∨
     (DesktopPDFFileManager.merge_pdfs lib fs s o).1.result = .cancelled) ∧
    ((MobilePDFFileManager.add_files fs s ps).1.result = .success ∨
     (MobilePDFFileManager.add_files fs s ps).1.result = .error ∨
     (MobilePDFFileManager.add_files fs s ps).1.result = .cancelled) ∧
    ((MobilePDFFileManager.remove_file s i).1.result = .success ∨
     (MobilePDFFileManager.remove_file s i).1.result = .error ∨
     (MobilePDFFileManager.remove_file s i).1.result = .cancelled) ∧
    ((MobilePDFFileManager.clear_files s).1.result = .success ∨
     (MobilePDFFileManager.clear_files s).1.result = .error ∨
     (MobilePDFFileManager.clear_files s).1.result = .cancelled) ∧
    ((MobilePDFFileManager.move_file s i j).1.result = .success ∨
     (MobilePDFFileManager.move_file s i j).1.result = .error ∨
     (MobilePDFFileManager.move_file s i j).1.result = .cancelled) ∧
    ((MobilePDFFileManager.merge_pdfs lib fs s o).1.result = .success ∨
     (MobilePDFFileManager.merge_pdfs lib fs s o).1.result = .error ∨
     (MobilePDFFileManager.merge_pdfs lib fs s o).1.result = .cancelled ∨
     (MobilePDFFileManager.merge_pdfs lib fs s o).1.result = .permission_denied) := by
  refine ⟨?_, ?_, ?_, ?_, ?_, ?_, ?_, ?_, ?_, ?_, ?_, ?_, ?_, ?_, ?_⟩
  · exact (base_add_files_result fs s ps).imp id Or.inl
  · exact (base_remove_file_result s i).imp id Or.inl
  · exact Or.inl (base_clear_files_result s)
  · exact (base_move_file_result s i j).imp id Or.inl
  · exact (base_merge_pdfs_result lib fs s o).imp id Or.inl
  · exact (desktop_add_files_result fs s ps).imp id Or.inl
  · exact (desktop_remove_file_result s i).imp id Or.inl
  · exact Or.inl (desktop_clear_files_result s)
  · exact (desktop_move_file_result s i j).imp id Or.inl
  · exact (desktop_merge_pdfs_result lib fs s o).imp id Or.inl
  · exact (mobile_add_files_result fs s ps).imp id Or.inl
  · exact (mobile_remove_file_result s i).imp id Or.inl
  · exact Or.inl (mobile_clear_files_result s)
  · exact (mobile_move_file_result s i j).imp id Or.inl
  · rcases mobile_merge_pdfs_result lib fs s o with h | h | h
    · exact Or.inl h
    · exact Or.inr (Or.inl h)
    · exact Or.inr (Or.inr (Or.inr h))

/-- C4: In each of the three manager variants, whenever a list-mutating
operation actually changes `selected_files`, the emitted notifications
are exactly one invocation per currently registered observer, each
receiving the updated file list (a value snapshot, per
`selected_files.copy()`). -/
theorem tetra_C4_observer_notification (fs : FileSystem) (s : ManagerState) (op : Op) :
    ((PDFFileManager.applyOp fs s op).2.1.selected_files ≠ s.selected_files →
      (PDFFileManager.applyOp fs s op).2.2 = s.observers.map
        (fun callback => (callback, (PDFFileManager.applyOp fs s op).2.1.selected_files))) ∧
    ((DesktopPDFFileManager.applyOp fs s op).2.1.selected_files ≠ s.selected_files →
      (DesktopPDFFileManager.applyOp fs s op).2.2 = s.observers.map
        (fun callback => (callback, (DesktopPDFFileManager.applyOp fs s op).2.1.selected_files))) ∧
    ((MobilePDFFileManager.applyOp fs s op).2.1.selected_files ≠ s.selected_files →
      (MobilePDFFileManager.applyOp fs s op).2.2 = s.observers.map
        (fun callback => (callback, (MobilePDFFileManager.applyOp fs s op).2.1.selected_files))) := by
  refine ⟨?_, ?_, ?_⟩
  · cases op with
    | addFiles ps =>
      intro h
      simp only [PDFFileManager.applyOp] at h ⊢
      have hst := base_add_files_state fs s ps
      have hev := base_add_files_events fs s ps
      by_cases he : ps.isEmpty = true
      · rw [if_pos he] at hst
        rw [hst] at h
        exact absurd rfl h
      · rw [if_neg he] at hst hev
        rw [hev, hst]
        rfl
    | removeFile i =>
      intro h
      simp only [PDFFileManager.applyOp] at h ⊢
      unfold PDFFileManager.remove_file at h ⊢
      by_cases hg : ¬(0 ≤ i ∧ i < (s.selected_files.length : Int))
      · rw [if_pos hg] at h
        exact absurd rfl h
      · rw [if_neg hg]
        rfl
    | moveFile i j =>
      intro h
      simp only [PDFFileManager.applyOp] at h ⊢
      unfold PDFFileManager.move_file at h ⊢
      by_cases hg : ¬(0 ≤ i ∧ i < (s.selected_files.length : Int) ∧
          0 ≤ j ∧ j < (s.selected_files.length : Int))
      · rw [if_pos hg] at h
        exact absurd rfl h
      · rw [if_neg hg]
        rfl
    | clearFiles =>
      intro h
      rfl
  · cases op with
    | addFiles ps =>
      intro h
      simp only [DesktopPDFFileManager.applyOp] at h ⊢
      have hst := desktop_add_files_state fs s ps
      have hev := desktop_add_files_events fs s ps
      by_cases he : ps.isEmpty = true
      · rw [if_pos he] at hst
        rw [hst] at h
        exact absurd rfl h
      · rw [if_neg he] at hst hev
        by_cases ha : (!(ps.foldl (DesktopPDFFileManager.addStep fs)
            ⟨s.selected_files, [], []⟩).added.isEmpty) = true
        · rw [if_pos ha] at hev
          rw [hev, hst]
          rfl
        · exfalso
          have hae : (ps.foldl (DesktopPDFFileManager.addStep fs)
              ⟨s.selected_files, [], []⟩).added = [] := by
            simpa using ha
          have hlen : (ps.foldl (DesktopPDFFileManager.addStep fs)
              ⟨s.selected_files, [], []⟩).added.length =
              (⟨s.selected_files, [], []⟩ : AddAcc).added.length := by
            rw [hae]
          have hfe := foldl_step_files_of_added (stepOk_desktop fs) ps
            ⟨s.selected_files, [], []⟩ hlen
          rw [hst] at h
          exact h hfe
    | removeFile i =>
      intro h
      simp only [DesktopPDFFileManager.applyOp] at h ⊢
      unfold DesktopPDFFileManager.remove_file at h ⊢
      by_cases hg : ¬(0 ≤ i ∧ i < (s.selected_files.length : Int))
      · rw [if_pos hg] at h
        exact absurd rfl h
      · rw [if_neg hg]
        rfl
    | moveFile i j =>
      intro h
      simp only [DesktopPDFFileManager.applyOp] at h ⊢
      unfold DesktopPDFFileManager.move_file at h ⊢
      by_cases hg : ¬(0 ≤ i ∧ i < (s.selected_files.length : Int) ∧
          0 ≤ j ∧ j < (s.selected_files.length : Int))
      · rw [if_pos hg] at h
        exact absurd rfl h
      · rw [if_neg hg]
        rfl
    | clearFiles =>
      intro h
      rfl
  · cases op with
    | addFiles ps =>
      intro h
      simp only [MobilePDFFileManager.applyOp] at h ⊢
      have hst := mobile_add_files_state fs s ps
      have hev := mobile_add_files_events fs s ps
      by_cases he : ps.isEmpty = true
      · rw [if_pos he] at hst
        rw [hst] at h
        exact absurd rfl h
      · rw [if_neg he] at hst hev
        by_cases ha : (!(ps.foldl (MobilePDFFileManager.addStep fs)
            ⟨s.selected_files, [], []⟩).added.isEmpty) = true
        · rw [if_pos ha] at hev
          rw [hev, hst]
          rfl
        · exfalso
          have hae : (ps.foldl (MobilePDFFileManager.addStep fs)
              ⟨s.selected_files, [], []⟩).added = [] := by
            simpa using ha
          have hlen : (ps.foldl (MobilePDFFileManager.addStep fs)
              ⟨s.selected_files, [], []⟩).added.length =
              (⟨s.selected_files, [], []⟩ : AddAcc).added.length := by
            rw [hae]
          have hfe := foldl_step_files_of_added (stepOk_mobile fs) ps
            ⟨s.selected_files, [], []⟩ hlen
          rw [hst] at h
          exact h hfe
    | removeFile i =>
      intro h
      simp only [MobilePDFFileManager.applyOp] at h ⊢
      unfold MobilePDFFileManager.remove_file at h ⊢
      by_cases hg : ¬(0 ≤ i ∧ i < (s.selected_files.length : Int))
      · rw [if_pos hg] at h
        exact absurd rfl h
      · rw [if_neg hg]
        rfl
    | moveFile i j =>
      intro h
      simp only [MobilePDFFileManager.applyOp] at h ⊢
      unfold MobilePDFFileManager.move_file at h ⊢
      by_cases hg : ¬(0 ≤ i ∧ i < (s.selected_files.length : Int) ∧
          0 ≤ j ∧ j < (s.selected_files.length : Int))
      · rw [if_pos hg] at h
        exact absurd rfl h
      · rw [if_neg hg]
        rfl
    | clearFiles =>
      intro h
      rfl

/-- Witness for C4: adding one valid file to an empty manager with one
registered observer notifies that observer with the updated singleton
list, in all three variants. -/
theorem tetra_C4_observer_notification_witness :
    (PDFFileManager.applyOp ⟨fun _ => true, fun _ => true, fun _ => true,
      fun _ => true, fun _ => []⟩ ⟨[], [5]⟩ (.addFiles ["a.pdf".data])).2.2 =
      [(5, ["a.pdf".data])] ∧
    (DesktopPDFFileManager.applyOp ⟨fun _ => true, fun _ => true, fun _ => true,
      fun _ => true, fun _ => []⟩ ⟨[], [5]⟩ (.addFiles ["a.pdf".data])).2.2 =
      [(5, ["a.pdf".data])] ∧
    (MobilePDFFileManager.applyOp ⟨fun _ => true, fun _ => true, fun _ => true,
      fun _ => true, fun _ => []⟩ ⟨[], [5]⟩ (.addFiles ["a.pdf".data])).2.2 =
      [(5, ["a.pdf".data])] := by
  have h := tetra_C4_observer_notification ⟨fun _ => true, fun _ => true, fun _ => true,
    fun _ => true, fun _ => []⟩ ⟨[], [5]⟩ (.addFiles ["a.pdf".data])
  refine ⟨?_, ?_, ?_⟩
  · rw [h.1 (by decide)]
    decide
  · rw [h.2.1 (by decide)]
    decide
  · rw [h.2.2 (by decide)]
    decide

section EvictLemmas

theorem cacheKeys_filter_sublist (c : Cache) (p : Nat × String → Bool) :
    List.Sublist (cacheKeys (c.filter p)) (cacheKeys c) :=
  List.Sublist.map Prod.fst (List.filter_sublist c)

theorem desktop_evict_length_lt (cur : Nat) (c : Cache) (hne : c ≠ []) :
    (DesktopViewer.evict cur c).length < c.length := by
  unfold DesktopViewer.evict
  cases hm : DesktopViewer.maxByDist cur (DesktopViewer.pagesToRemove cur c) with
  | some fp =>
    have hmem := maxByDist_mem cur _ fp hm
    unfold DesktopViewer.pagesToRemove at hmem
    exact length_cacheErase_lt c fp (List.mem_filter.mp hmem).1
  | none =>
    cases c with
    | nil => exact absurd rfl hne
    | cons kv rest =>
      have hkey : kv.1 ∈ cacheKeys (kv :: rest) := by simp [cacheKeys]
      exact length_cacheErase_lt _ kv.1 hkey

theorem desktop_evict_keys_sublist (cur : Nat) (c : Cache) :
    List.Sublist (cacheKeys (DesktopViewer.evict cur c)) (cacheKeys c) := by
  unfold DesktopViewer.evict
  cases hm : DesktopViewer.maxByDist cur (DesktopViewer.pagesToRemove cur c) with
  | some fp => exact cacheKeys_cacheErase_sublist c fp
  | none =>
    cases c with
    | nil => exact List.Sublist.refl _
    | cons kv rest => exact cacheKeys_cacheErase_sublist (kv :: rest) kv.1

end EvictLemmas

/-- C2: For both viewer screens, `add_to_cache` preserves the bound
`cache size ≤ max_cache_size` (5 on the desktop viewer, 2 on the mobile
viewer), together with key uniqueness, so the cache never exceeds its
small constant under any sequence of page renders. -/
theorem tetra_C2_cache_bound (current_page : Nat) (c : Cache) (page_number : Nat)
    (image_data : String) :
    ((cacheKeys c).Nodup → c.length ≤ DesktopViewer.max_cache_size →
      (DesktopViewer.add_to_cache current_page c page_number image_data).length ≤
        DesktopViewer.max_cache_size ∧
      (cacheKeys (DesktopViewer.add_to_cache current_page c page_number image_data)).Nodup) ∧
    ((cacheKeys c).Nodup → c.length ≤ MobileViewer.max_cache_size →
      (MobileViewer.add_to_cache current_page c page_number image_data).length ≤
        MobileViewer.max_cache_size ∧
      (cacheKeys (MobileViewer.add_to_cache current_page c page_number image_data)).Nodup) := by
  constructor
  · intro hnd hle
    unfold DesktopViewer.add_to_cache
    split
    · rename_i hfull
      have hne : c ≠ [] := by
        intro hceq
        rw [hceq] at hfull
        simp [DesktopViewer.max_cache_size] at hfull
      have hlt := desktop_evict_length_lt current_page c hne
      have hins := length_cacheInsert_le (DesktopViewer.evict current_page c)
        page_number image_data
      refine ⟨by omega, ?_⟩
      exact cacheKeys_nodup_cacheInsert _ _ _
        (hnd.sublist (desktop_evict_keys_sublist current_page c))
    · rename_i hfull
      have hins := length_cacheInsert_le c page_number image_data
      have hlt : c.length < DesktopViewer.max_cache_size := by omega
      exact ⟨by omega, cacheKeys_nodup_cacheInsert _ _ _ hnd⟩
  · intro hnd hle
    unfold MobileViewer.add_to_cache
    split
    · rename_i hfull
      have hfil := length_filter_key_le_one c current_page hnd
      have hins := length_cacheInsert_le (c.filter (fun kv => kv.1 == current_page))
        page_number image_data
      refine ⟨?_, ?_⟩
      · simp only [MobileViewer.max_cache_size] at *
        omega
      · exact cacheKeys_nodup_cacheInsert _ _ _
          (hnd.sublist (cacheKeys_filter_sublist c _))
    · rename_i hfull
      have hins := length_cacheInsert_le c page_number image_data
      have hlt : c.length < MobileViewer.max_cache_size := by omega
      exact ⟨by omega, cacheKeys_nodup_cacheInsert _ _ _ hnd⟩

/-- Witness for C2: inserting a sixth page into a full desktop cache
keeps it at five entries; inserting a third page into a full mobile
cache keeps it at two. -/
theorem tetra_C2_cache_bound_witness :
    (DesktopViewer.add_to_cache 3 [(1, "a"), (2, "b"), (3, "c"), (4, "d"), (5, "e")]
      6 "x").length ≤ DesktopViewer.max_cache_size ∧
    (MobileViewer.add_to_cache 1 [(1, "a"), (2, "b")] 3 "x").length ≤
      MobileViewer.max_cache_size := by
  constructor
  · exact ((tetra_C2_cache_bound 3 [(1, "a"), (2, "b"), (3, "c"), (4, "d"), (5, "e")]
      6 "x").1 (by decide) (by decide)).1
  · exact ((tetra_C2_cache_bound 1 [(1, "a"), (2, "b")] 3 "x").2
      (by decide) (by decide)).1

/-- C7: When a page is added to a full cache, the desktop viewer evicts
a cached page of maximal distance from the current page among those more
than 2 pages away, falling back to the oldest (first-inserted) entry
when every cached page is within distance 2; the mobile viewer removes
every cached page other than the current page, so afterwards only the
current page and the new page can be cached. -/
theorem tetra_C7_cache_eviction (current_page : Nat) (c : Cache) (page_number : Nat)
    (image_data : String) :
    ((DesktopViewer.max_cache_size ≤ c.length →
      DesktopViewer.pagesToRemove current_page c ≠ [] →
      ∃ fp, DesktopViewer.maxByDist current_page
          (DesktopViewer.pagesToRemove current_page c) = some fp ∧
        fp ∈ cacheKeys c ∧ 2 < Nat.dist fp current_page ∧
        (∀ q ∈ cacheKeys c, 2 < Nat.dist q current_page →
          Nat.dist q current_page ≤ Nat.dist fp current_page) ∧
        DesktopViewer.add_to_cache current_page c page_number image_data =
          cacheInsert (cacheErase c fp) page_number image_data) ∧
     (DesktopViewer.max_cache_size ≤ c.length →
      DesktopViewer.pagesToRemove current_page c = [] →
      ∀ kv rest, c = kv :: rest →
        DesktopViewer.add_to_cache current_page c page_number image_data =
          cacheInsert (cacheErase c kv.1) page_number image_data)) ∧
    (MobileViewer.max_cache_size ≤ c.length →
      MobileViewer.add_to_cache current_page c page_number image_data =
        cacheInsert (c.filter (fun kv => kv.1 == current_page)) page_number image_data ∧
      ∀ k ∈ cacheKeys (MobileViewer.add_to_cache current_page c page_number image_data),
        k = current_page ∨ k = page_number) := by
  refine ⟨⟨?_, ?_⟩, ?_⟩
  · intro hfull hne
    obtain ⟨fp, hm⟩ : ∃ fp, DesktopViewer.maxByDist current_page
        (DesktopViewer.pagesToRemove current_page c) = some fp := by
      cases hP : DesktopViewer.pagesToRemove current_page c with
      | nil => exact absurd hP hne
      | cons q qs =>
        obtain ⟨b, hb⟩ := maxByDist_isSome current_page q qs
        exact ⟨b, hb⟩
    have hmem := maxByDist_mem current_page _ fp hm
    unfold DesktopViewer.pagesToRemove at hmem
    have hfil := List.mem_filter.mp hmem
    refine ⟨fp, hm, hfil.1, by simpa using hfil.2, ?_, ?_⟩
    · intro q hq hqd
      refine maxByDist_ge current_page _ fp hm q ?_
      unfold DesktopViewer.pagesToRemove
      exact List.mem_filter.mpr ⟨hq, by simpa using hqd⟩
    · simp only [DesktopViewer.add_to_cache, if_pos hfull, DesktopViewer.evict, hm]
  · intro hfull hnil kv rest hc
    subst hc
    simp only [DesktopViewer.add_to_cache, if_pos hfull, DesktopViewer.evict, hnil,
      DesktopViewer.maxByDist]
  · intro hfull
    have heq : MobileViewer.add_to_cache current_page c page_number image_data =
        cacheInsert (c.filter (fun kv => kv.1 == current_page)) page_number image_data := by
      simp only [MobileViewer.add_to_cache, if_pos hfull]
    refine ⟨heq, ?_⟩
    intro k hk
    have hmemfilter : ∀ k', k' ∈ cacheKeys (c.filter (fun kv => kv.1 == current_page)) →
        k' = current_page := by
      intro k' hk'
      obtain ⟨kv, hkv, hfst⟩ := List.mem_map.mp hk'
      have := (List.mem_filter.mp hkv).2
      rw [← hfst]
      simpa using this
    rw [heq, cacheKeys_cacheInsert] at hk
    split at hk
    · exact Or.inl (hmemfilter k hk)
    · rcases List.mem_append.mp hk with h1 | h1
      · exact Or.inl (hmemfilter k h1)
      · have : k = page_number := by simpa using h1
        exact Or.inr this

/-- Witness for C7: with current page 3, a full desktop cache holding
page 10 evicts page 10 (the only page beyond distance 2, hence the
furthest); a full desktop cache of pages 1–5 (all within distance 2)
falls back to evicting the oldest entry, page 1; a full mobile cache
keeps only the current page before storing the new one. -/
theorem tetra_C7_cache_eviction_witness :
    DesktopViewer.add_to_cache 3 [(1, "a"), (2, "b"), (3, "c"), (4, "d"), (10, "e")] 6 "x" =
      cacheInsert (cacheErase [(1, "a"), (2, "b"), (3, "c"), (4, "d"), (10, "e")] 10) 6 "x" ∧
    DesktopViewer.add_to_cache 3 [(1, "a"), (2, "b"), (3, "c"), (4, "d"), (5, "e")] 6 "x" =
      cacheInsert (cacheErase [(1, "a"), (2, "b"), (3, "c"), (4, "d"), (5, "e")] 1) 6 "x" ∧
    MobileViewer.add_to_cache 2 [(1, "a"), (2, "b")] 3 "x" =
      cacheInsert ([(1, "a"), (2, "b")].filter (fun kv => kv.1 == 2)) 3 "x" := by
  refine ⟨?_, ?_, ?_⟩
  · obtain ⟨fp, hm, _, _, _, heq⟩ :=
      (tetra_C7_cache_eviction 3 [(1, "a"), (2, "b"), (3, "c"), (4, "d"), (10, "e")]
        6 "x").1.1 (by decide) (by decide)
    have hdec : DesktopViewer.maxByDist 3
        (DesktopViewer.pagesToRemove 3 [(1, "a"), (2, "b"), (3, "c"), (4, "d"), (10, "e")]) =
        some 10 := by decide
    rw [hm] at hdec
    have hfp : fp = 10 := Option.some.inj hdec
    rw [hfp] at heq
    exact heq
  · exact (tetra_C7_cache_eviction 3 [(1, "a"), (2, "b"), (3, "c"), (4, "d"), (5, "e")]
      6 "x").1.2 (by decide) (by decide) (1, "a") [(2, "b"), (3, "c"), (4, "d"), (5, "e")] rfl
  · exact ((tetra_C7_cache_eviction 2 [(1, "a"), (2, "b")] 3 "x").2 (by decide)).1

section NavLemmas

theorem desktop_applyNav_bounds (v : ViewerNavState) (op : NavOp)
    (h : 1 ≤ v.current_page ∧ v.current_page ≤ v.total_pages) :
    1 ≤ (DesktopViewer.applyNav v op).current_page ∧
    (DesktopViewer.applyNav v op).current_page ≤ (DesktopViewer.applyNav v op).total_pages ∧
    (DesktopViewer.applyNav v op).total_pages = v.total_pages := by
  cases op with
  | next =>
    show 1 ≤ (DesktopViewer.show_next v).current_page ∧
      (DesktopViewer.show_next v).current_page ≤ (DesktopViewer.show_next v).total_pages ∧
      (DesktopViewer.show_next v).total_pages = v.total_pages
    unfold DesktopViewer.show_next
    split
    · dsimp only
      omega
    · exact ⟨h.1, h.2, rfl⟩
  | previous =>
    show 1 ≤ (DesktopViewer.show_previous v).current_page ∧
      (DesktopViewer.show_previous v).current_page ≤
        (DesktopViewer.show_previous v).total_pages ∧
      (DesktopViewer.show_previous v).total_pages = v.total_pages
    unfold DesktopViewer.show_previous
    split
    · dsimp only
      omega
    · exact ⟨h.1, h.2, rfl⟩
  | jump p =>
    show 1 ≤ (DesktopViewer.jump_to_page v p).current_page ∧
      (DesktopViewer.jump_to_page v p).current_page ≤
        (DesktopViewer.jump_to_page v p).total_pages ∧
      (DesktopViewer.jump_to_page v p).total_pages = v.total_pages
    unfold DesktopViewer.jump_to_page
    split
    · dsimp only
      omega
    · exact ⟨h.1, h.2, rfl⟩

theorem mobile_applyNav_bounds (v : ViewerNavState) (op : NavOp)
    (h : 1 ≤ v.current_page ∧ v.current_page ≤ v.total_pages) :
    1 ≤ (MobileViewer.applyNav v op).current_page ∧
    (MobileViewer.applyNav v op).current_page ≤ (MobileViewer.applyNav v op).total_pages ∧
    (MobileViewer.applyNav v op).total_pages = v.total_pages := by
  cases op with
  | next =>
    show 1 ≤ (MobileViewer.show_next v).current_page ∧
      (MobileViewer.show_next v).current_page ≤ (MobileViewer.show_next v).total_pages ∧
      (MobileViewer.show_next v).total_pages = v.total_pages
    unfold MobileViewer.show_next
    split
    · dsimp only
      omega
    · exact ⟨h.1, h.2, rfl⟩
  | previous =>
    show 1 ≤ (MobileViewer.show_previous v).current_page ∧
      (MobileViewer.show_previous v).current_page ≤
        (MobileViewer.show_previous v).total_pages ∧
      (MobileViewer.show_previous v).total_pages = v.total_pages
    unfold MobileViewer.show_previous
    split
    · dsimp only
      omega
    · exact ⟨h.1, h.2, rfl⟩
  | jump p =>
    show 1 ≤ (MobileViewer.jump_to_page v p).current_page ∧
      (MobileViewer.jump_to_page v p).current_page ≤
        (MobileViewer.jump_to_page v p).total_pages ∧
      (MobileViewer.jump_to_page v p).total_pages = v.total_pages
    unfold MobileViewer.jump_to_page
    split
    · dsimp only
      omega
    · exact ⟨h.1, h.2, rfl⟩

theorem desktop_runNav_bounds :
    ∀ (ops : List NavOp) (v : ViewerNavState),
      1 ≤ v.current_page ∧ v.current_page ≤ v.total_pages →
      1 ≤ (DesktopViewer.runNav v ops).current_page ∧
      (DesktopViewer.runNav v ops).current_page ≤ (DesktopViewer.runNav v ops).total_pages ∧
      (DesktopViewer.runNav v ops).total_pages = v.total_pages := by
  intro ops
  induction ops with
  | nil => intro v h; exact ⟨h.1, h.2, rfl⟩
  | cons op rest ih =>
    intro v h
    have h1 := desktop_applyNav_bounds v op h
    have h2 := ih (DesktopViewer.applyNav v op) ⟨h1.1, h1.2.1⟩
    exact ⟨h2.1, h2.2.1, h2.2.2.trans h1.2.2⟩

theorem mobile_runNav_bounds :
    ∀ (ops : List NavOp) (v : ViewerNavState),
      1 ≤ v.current_page ∧ v.current_page ≤ v.total_pages →
      1 ≤ (MobileViewer.runNav v ops).current_page ∧
      (MobileViewer.runNav v ops).current_page ≤ (MobileViewer.runNav v ops).total_pages ∧
      (MobileViewer.runNav v ops).total_pages = v.total_pages := by
  intro ops
  induction ops with
  | nil => intro v h; exact ⟨h.1, h.2, rfl⟩
  | cons op rest ih =>
    intro v h
    have h1 := mobile_applyNav_bounds v op h
    have h2 := ih (MobileViewer.applyNav v op) ⟨h1.1, h1.2.1⟩
    exact ⟨h2.1, h2.2.1, h2.2.2.trans h1.2.2⟩

end NavLemmas

/-- C10: In both viewer screens, once a PDF with `total_pages > 0` is
loaded (`current_page = 1`), any sequence of `show_next`,
`show_previous` and `jump_to_page` operations keeps `current_page`
within `[1, total_pages]`: `show_next` never increments past the end,
`show_previous` never goes below 1, and `jump_to_page` ignores
out-of-range targets. -/
theorem tetra_C10_page_bounds (total : Nat) (h : 0 < total) (ops : List NavOp) :
    (1 ≤ (DesktopViewer.runNav ⟨1, total⟩ ops).current_page ∧
     (DesktopViewer.runNav ⟨1, total⟩ ops).current_page ≤ total) ∧
    (1 ≤ (MobileViewer.runNav ⟨1, total⟩ ops).current_page ∧
     (MobileViewer.runNav ⟨1, total⟩ ops).current_page ≤ total) := by
  have hd := desktop_runNav_bounds ops ⟨1, total⟩ ⟨le_refl 1, h⟩
  have hm := mobile_runNav_bounds ops ⟨1, total⟩ ⟨le_refl 1, h⟩
  exact ⟨⟨hd.1, by have := hd.2.1; have := hd.2.2; simp_all⟩,
         ⟨hm.1, by have := hm.2.1; have := hm.2.2; simp_all⟩⟩

/-- Witness for C10: on a 3-page document, navigating next three times,
jumping to the out-of-range page 5 and going back once stays within
`[1, 3]` on both viewers. -/
theorem tetra_C10_page_bounds_witness :
    (1 ≤ (DesktopViewer.runNav ⟨1, 3⟩
        [.next, .next, .next, .jump 5, .previous]).current_page ∧
     (DesktopViewer.runNav ⟨1, 3⟩
        [.next, .next, .next, .jump 5, .previous]).current_page ≤ 3) ∧
    (1 ≤ (MobileViewer.runNav ⟨1, 3⟩
        [.next, .next, .next, .jump 5, .previous]).current_page ∧
     (MobileViewer.runNav ⟨1, 3⟩
        [.next, .next, .next, .jump 5, .previous]).current_page ≤ 3) :=
  tetra_C10_page_bounds 3 (by decide) [.next, .next, .next, .jump 5, .previous]
